import Mathlib

/-!
Verification development for the go-stdx/trash repository.

The Go sources are shallowly embedded:
- Go strings are byte lists (Str); all literals in the code are ASCII.
- Go time.Time is modeled by GoTime: the civil (calendar) breakdown of the
  instant in UTC, the sub-second nanoseconds, and the zone offset; Format
  renders the breakdown shifted into the zone, and UTC() discards the zone.
- The filesystem is an association list from paths to file records; the
  environmental failures of individual syscalls (write, rename, remove,
  copy, close, chtimes) are injected through explicit boolean oracles,
  and the catalog operations additionally emit an event trace so that
  ordering properties (metadata-before-data and the reverse) are provable.
-/

namespace TrashSpec

/-- Byte strings: a Go string is a sequence of bytes. -/
abbrev Str := List Nat

/-- Bytes of an ASCII Lean string literal, used to transcribe Go literals. -/
def strBytes (s : String) : Str := s.data.map Char.toNat

/-- Validity of a byte string: every element is an actual byte. -/
def ValidBytes (s : Str) : Prop := ∀ b ∈ s, b < 256

instance : DecidablePred ValidBytes := fun s => List.decidableBAll _ s

/-! ## Percent escaping (net/url QueryEscape / QueryUnescape) -/

/-- Bytes kept verbatim by Go url.QueryEscape: alphanumerics and - _ . ~ . -/
def isUnreservedByte (b : Nat) : Bool :=
  (48 ≤ b && b ≤ 57) || (65 ≤ b && b ≤ 90) || (97 ≤ b && b ≤ 122) ||
    b == 45 || b == 95 || b == 46 || b == 126

/-- Upper-case hexadecimal digit byte for a nibble. -/
def hexUpper (n : Nat) : Nat := if n < 10 then 48 + n else 55 + n

/-- Escape of a single byte under url.QueryEscape: space becomes a plus sign,
unreserved bytes are kept, everything else becomes a percent triple. -/
def queryEscapeByte (b : Nat) : Str :=
  if b == 32 then [43]
  else if isUnreservedByte b then [b]
  else [37, hexUpper (b / 16), hexUpper (b % 16)]

/-- Go url.QueryEscape over a byte string. -/
def queryEscape : Str → Str
  | [] => []
  | b :: r => queryEscapeByte b ++ queryEscape r

/-- Go strings.ReplaceAll(s, plus, percent-two-zero): the pattern is the single
byte 43, so the replacement acts bytewise. -/
def replacePlus : Str → Str
  | [] => []
  | b :: r => if b == 43 then 37 :: 50 :: 48 :: replacePlus r else b :: replacePlus r

/-- Path encoding used by writeTrashInfo: QueryEscape, then plus replaced
by the percent-two-zero triple. -/
def escapePath (p : Str) : Str := replacePlus (queryEscape p)

/-- Value of a hexadecimal digit byte (either case), as in Go url unescaping. -/
def fromHexDigit (c : Nat) : Option Nat :=
  if 48 ≤ c ∧ c ≤ 57 then some (c - 48)
  else if 65 ≤ c ∧ c ≤ 70 then some (c - 55)
  else if 97 ≤ c ∧ c ≤ 102 then some (c - 87)
  else none

/-- Go url.QueryUnescape: percent triples decode, a plus decodes to a space,
everything else is kept; an invalid percent sequence is an error. -/
def queryUnescape : Str → Option Str
  | [] => some []
  | c :: rest =>
    if c = 37 then
      match rest with
      | a :: b :: r2 =>
        match fromHexDigit a, fromHexDigit b with
        | some x, some y => (queryUnescape r2).map (fun t => (16 * x + y) :: t)
        | _, _ => none
      | _ => none
    else if c = 43 then (queryUnescape rest).map (fun t => 32 :: t)
    else (queryUnescape rest).map (fun t => c :: t)

/-- Bytewise description of escapePath: space becomes the percent-two-zero
triple (not a plus), unreserved bytes stay, the rest become percent triples. -/
def escByteFinal (b : Nat) : Str :=
  if b == 32 then [37, 50, 48]
  else if isUnreservedByte b then [b]
  else [37, hexUpper (b / 16), hexUpper (b % 16)]

/-! ## Time

Go time.Time is modeled by its civil (proleptic Gregorian) breakdown in UTC
together with the sub-second nanoseconds and the zone offset in minutes.
Formatting with layout 2006-01-02T15:04:05 renders the breakdown shifted
into the zone of the value; calling UTC() first makes that shift zero.
-/

/-- Civil date and time of day (calendar fields, second resolution). -/
structure Civil where
  year : Int
  month : Nat
  day : Nat
  hour : Nat
  minute : Nat
  second : Nat
deriving DecidableEq, Repr

/-- Gregorian leap-year test. -/
def isLeap (y : Int) : Bool := (y % 4 == 0 && y % 100 != 0) || y % 400 == 0

/-- Length of a month in a given year. -/
def daysInMonth (y : Int) (m : Nat) : Nat :=
  if m = 2 then (if isLeap y then 29 else 28)
  else if m = 4 ∨ m = 6 ∨ m = 9 ∨ m = 11 then 30
  else 31

/-- Validity of a civil value: in-range fields and a four-digit year. -/
def civilValid (c : Civil) : Bool :=
  decide (0 ≤ c.year) && decide (c.year ≤ 9999) && decide (1 ≤ c.month) &&
    decide (c.month ≤ 12) && decide (1 ≤ c.day) &&
    decide (c.day ≤ daysInMonth c.year c.month) && decide (c.hour < 24) &&
    decide (c.minute < 60) && decide (c.second < 60)

/-- Days since the Unix epoch of a civil date (era-based computation). -/
def daysFromCivilYMD (y : Int) (m d : Nat) : Int :=
  let yy : Int := if m ≤ 2 then y - 1 else y
  let era : Int := Int.ediv yy 400
  let yoe : Nat := (yy - era * 400).toNat
  let mp : Nat := if m > 2 then m - 3 else m + 9
  let doy : Nat := (153 * mp + 2) / 5 + d - 1
  let doe : Nat := 365 * yoe + yoe / 4 - yoe / 100 + doy
  era * 146097 + (doe : Int) - 719468

/-- Civil date from days since the Unix epoch (era-based computation). -/
def civilFromDays (z : Int) : Int × Nat × Nat :=
  let zz := z + 719468
  let era : Int := Int.ediv zz 146097
  let doe : Nat := (Int.emod zz 146097).toNat
  let yoe : Nat := (doe - doe / 1460 + doe / 36524 - doe / 146096) / 365
  let doy : Nat := doe - (365 * yoe + yoe / 4 - yoe / 100)
  let mp : Nat := (5 * doy + 2) / 153
  let d : Nat := doy - (153 * mp + 2) / 5 + 1
  let m : Nat := if mp < 10 then mp + 3 else mp - 9
  ((yoe : Int) + era * 400 + (if m ≤ 2 then 1 else 0), m, d)

/-- Minutes since the Unix epoch of a civil value (seconds excluded). -/
def civilToMinutes (c : Civil) : Int :=
  daysFromCivilYMD c.year c.month c.day * 1440 + (c.hour : Int) * 60 + (c.minute : Int)

/-- Civil value from minutes since the Unix epoch plus a seconds field. -/
def minutesToCivil (z : Int) (sec : Nat) : Civil :=
  let days := Int.ediv z 1440
  let mins := (Int.emod z 1440).toNat
  let ymd := civilFromDays days
  ⟨ymd.1, ymd.2.1, ymd.2.2, mins / 60, mins % 60, sec⟩

/-- Shift of a civil value by a zone offset in minutes; a zero offset is the
identity (the stored breakdown is already the one to display). -/
def civilShift (c : Civil) (offMin : Int) : Civil :=
  if offMin = 0 then c else minutesToCivil (civilToMinutes c + offMin) c.second

/-- Model of Go time.Time: UTC civil breakdown, nanoseconds, zone offset. -/
structure GoTime where
  utc : Civil
  nanos : Nat
  offsetMin : Int
deriving DecidableEq, Repr

/-- Model of the Go method UTC(): same instant, zone offset zero. -/
def utcOf (t : GoTime) : GoTime := { t with offsetMin := 0 }

/-- Two-digit zero-padded decimal rendering. -/
def pad2 (n : Nat) : Str := [48 + n / 10 % 10, 48 + n % 10]

/-- Four-digit zero-padded decimal rendering. -/
def pad4 (n : Nat) : Str := [48 + n / 1000 % 10, 48 + n / 100 % 10, 48 + n / 10 % 10, 48 + n % 10]

/-- Rendering of a civil value in the layout 2006-01-02T15:04:05. -/
def renderCivil (c : Civil) : Str :=
  pad4 c.year.toNat ++ [45] ++ pad2 c.month ++ [45] ++ pad2 c.day ++ [84] ++
    pad2 c.hour ++ [58] ++ pad2 c.minute ++ [58] ++ pad2 c.second

/-- Model of Go t.Format(2006-01-02T15:04:05): the breakdown in the zone of
the value, truncated to whole seconds, with no offset indication. -/
def goFormatDateTime (t : GoTime) : Str := renderCivil (civilShift t.utc t.offsetMin)

/-- Decimal digit byte value. -/
def digitVal (c : Nat) : Option Nat :=
  if 48 ≤ c ∧ c ≤ 57 then some (c - 48) else none

/-- Two decimal digit bytes to a number. -/
def read2 (a b : Nat) : Option Nat :=
  match digitVal a, digitVal b with
  | some x, some y => some (10 * x + y)
  | _, _ => none

/-- Four decimal digit bytes to a number. -/
def read4 (a b c d : Nat) : Option Nat :=
  match digitVal a, digitVal b, digitVal c, digitVal d with
  | some x, some y, some z, some w => some (1000 * x + 100 * y + 10 * z + w)
  | _, _, _, _ => none

/-- Model of Go time.Parse with layout 2006-01-02T15:04:05: the value must
have exactly the layout shape with in-range fields; the result is in UTC. -/
def parseDateTime (s : Str) : Option Civil :=
  match s with
  | [y1, y2, y3, y4, c1, a1, a2, c2, b1, b2, c3, h1, h2, c4, i1, i2, c5, s1, s2] =>
    if c1 = 45 ∧ c2 = 45 ∧ c3 = 84 ∧ c4 = 58 ∧ c5 = 58 then
      match read4 y1 y2 y3 y4, read2 a1 a2, read2 b1 b2, read2 h1 h2,
          read2 i1 i2, read2 s1 s2 with
      | some y, some mo, some d, some h, some mi, some ss =>
        if 1 ≤ mo ∧ mo ≤ 12 ∧ 1 ≤ d ∧ d ≤ daysInMonth (y : Int) mo ∧ h < 24 ∧
            mi < 60 ∧ ss < 60 then
          some ⟨(y : Int), mo, d, h, mi, ss⟩
        else none
      | _, _, _, _, _, _ => none
    else none
  | _ => none

/-- Zero value of Go time.Time: January 1 of year 1, midnight UTC. -/
def zeroCivil : Civil := ⟨1, 1, 1, 0, 0, 0⟩


/-! ## Errors

Go errors are modeled as an inductive type with the package sentinels, an
opaque low-level error, and wrapping with a context message, mirroring
fmt.Errorf with a percent-w verb; errIs models errors.Is on that chain.
-/

/-- Model of the error values observable from the package. -/
inductive GoErr where
  | trashNotFound
  | invalidTrashInfo
  | fileNotInTrash
  | restoreFailed
  | alreadyExists
  | crossDevice
  | noTrashAvailable
  | io (tag : String)
  | wrap (msg : String) (inner : GoErr)
deriving DecidableEq, Repr

deriving instance DecidableEq for Except

/-- Model of errors.Is restricted to the sentinel targets: the target is
compared against every error in the wrapping chain. -/
def errIs : GoErr → GoErr → Bool
  | .wrap m inner, target => (GoErr.wrap m inner == target) || errIs inner target
  | e, target => e == target

/-! ## MetadataStore: writeTrashInfo and parseTrashInfo -/

/-- Literal header line of a trashinfo record. -/
def trashInfoHeader : Str := strBytes "[Trash Info]"

/-- Key of the path field. -/
def pathKey : Str := strBytes "Path="

/-- Key of the date field. -/
def dateKey : Str := strBytes "DeletionDate="

/-- Go strings.Split on the newline byte: separators delimit fields, empty
fields are kept, and the result is never empty. -/
def splitOnNl : Str → List Str
  | [] => [[]]
  | c :: rest =>
    if c = 10 then [] :: splitOnNl rest
    else
      match splitOnNl rest with
      | [] => [[c]]
      | l :: ls => (c :: l) :: ls

/-- Go strings.HasPrefix. -/
def hasPre (pre s : Str) : Bool := List.isPrefixOf pre s

/-- Go strings.TrimPrefix. -/
def dropPre (pre s : Str) : Str := if hasPre pre s then s.drop pre.length else s

/-- Go strings.HasSuffix. -/
def hasSuf (suf s : Str) : Bool := List.isSuffixOf suf s

/-- Go strings.TrimSuffix. -/
def dropSuf (suf s : Str) : Str :=
  if hasSuf suf s then s.take (s.length - suf.length) else s

/-- Content serialized by writeTrashInfo: the header line, the percent-escaped
original path after the path key, and the deletion time of the UTC view of
the timestamp, each line ended by a newline; written as one Sprintf. -/
def writeTrashInfoContent (originalPath : Str) (t : GoTime) : Str :=
  trashInfoHeader ++ [10] ++ pathKey ++ escapePath originalPath ++ [10] ++
    dateKey ++ goFormatDateTime (utcOf t) ++ [10]

/-- Result of parsing a trashinfo record: the two extracted fields. -/
structure ParsedInfo where
  originalPath : Str
  deletionDate : Civil
deriving DecidableEq, Repr

/-- Field-extraction loop of parseTrashInfo over the lines after the header:
a path line replaces the path accumulator with the unescaped value (empty on
an unescape error), a date line replaces the date accumulator with the parsed
value (the zero time on a parse error), other lines are ignored. -/
def parseLoop : List Str → Str → Civil → Str × Civil
  | [], op, dd => (op, dd)
  | l :: rest, op, dd =>
    if hasPre pathKey l then
      parseLoop rest ((queryUnescape (dropPre pathKey l)).getD []) dd
    else if hasPre dateKey l then
      parseLoop rest op ((parseDateTime (dropPre dateKey l)).getD zeroCivil)
    else parseLoop rest op dd

/-- Model of parseTrashInfo on the file content: requires at least three
lines and the exact header first line, then extracts the fields; fails with
the invalid-trashinfo error when the extracted path is empty. -/
def parseTrashInfoContent (content : Str) : Except GoErr ParsedInfo :=
  if (splitOnNl content).length < 3 ∨ (splitOnNl content).head? ≠ some trashInfoHeader then
    .error .invalidTrashInfo
  else if (parseLoop (splitOnNl content).tail [] zeroCivil).1 = [] then
    .error .invalidTrashInfo
  else
    .ok ⟨(parseLoop (splitOnNl content).tail [] zeroCivil).1,
      (parseLoop (splitOnNl content).tail [] zeroCivil).2⟩


/-! ## NameGenerator: sanitizeFilename and generateTrashNameInDir -/

/-- ASCII whitespace test used by the trim model (multi-byte Unicode spaces
are outside the byte-level model). -/
def isSpaceByte (b : Nat) : Bool :=
  b == 32 || b == 9 || b == 10 || b == 11 || b == 12 || b == 13

/-- Go strings.TrimSpace over bytes. -/
def trimSpace (s : Str) : Str :=
  ((s.dropWhile isSpaceByte).reverse.dropWhile isSpaceByte).reverse

/-- Model of sanitizeFilename: the empty name maps to a fixed placeholder;
after trimming, a name that is exactly the single dot maps to another. -/
def sanitizeFilename (name : Str) : Str :=
  if name = [] then strBytes "unnamed"
  else
    let name2 := trimSpace name
    if hasPre (strBytes ".") name2 ∧ name2.length = 1 then strBytes "dot"
    else name2

/-- Decimal digit bytes of a number, most significant first. -/
def decRepr (n : Nat) : Str := (Nat.toDigits 10 n).map Char.toNat

/-- Lower-case hexadecimal digit byte for a nibble. -/
def hexLower (n : Nat) : Nat := if n < 10 then 48 + n else 87 + n

/-- Go encoding/hex EncodeToString: two lower-case digits per byte. -/
def hexEncode : Str → Str
  | [] => []
  | b :: r => hexLower (b / 16) :: hexLower (b % 16) :: hexEncode r

/-- Model of filepath.Join of a clean directory and a relative component. -/
def joinP (a b : Str) : Str := a ++ [47] ++ b

/-- Model of filepath.Join with two relative components. -/
def join3 (a b c : Str) : Str := a ++ [47] ++ b ++ [47] ++ c

/-- Model of filepath.Base: the last path segment (trailing separators
removed); the empty path gives a dot and an all-separator path a separator. -/
def baseNameOf (p : Str) : Str :=
  if p = [] then strBytes "."
  else
    let rev := p.reverse.dropWhile (fun b => b == 47)
    if rev = [] then [47]
    else (rev.takeWhile (fun b => !(b == 47))).reverse

/-- Candidate probed at attempt i: the bare name at attempt zero, then the
name with a dot and the decimal attempt number. -/
def candidateName (base : Str) (i : Nat) : Str :=
  if i = 0 then base else base ++ [46] ++ decRepr i

/-- Freedom test of one candidate in a trash root: neither the files entry
nor the info entry (with the trashinfo suffix) exists, both probed by Lstat. -/
def nameFree (existsAt : Str → Bool) (trashDir name : Str) : Bool :=
  !(existsAt (join3 trashDir (strBytes "files") name)) &&
    !(existsAt (join3 trashDir (strBytes "info") (name ++ strBytes ".trashinfo")))

/-- Bounded probe loop of generateTrashNameInDir, by remaining fuel and
current attempt index. -/
def genLoop (existsAt : Str → Bool) (trashDir base : Str) : Nat → Nat → Option Str
  | 0, _ => none
  | fuel + 1, i =>
    let name := candidateName base i
    if nameFree existsAt trashDir name then some name
    else genLoop existsAt trashDir base fuel (i + 1)

/-- Model of generateTrashNameInDir: sanitize, then 100 probe attempts, then
the random-hex fallback without a further existence check. -/
def generateTrashNameInDir (existsAt : Str → Bool) (baseName trashDir randomBytes : Str) :
    Str :=
  match genLoop existsAt trashDir (sanitizeFilename baseName) 100 0 with
  | some name => name
  | none => sanitizeFilename baseName ++ [46] ++ hexEncode randomBytes

/-! ## Filesystem model and the catalog operations -/

/-- Model of a filesystem object: kind, permission bits, modification time
and content; a symlink carries its target instead of content. -/
structure File where
  isDir : Bool := false
  isSymlink : Bool := false
  linkTarget : Str := []
  mode : Nat := 0
  mtime : Int := 0
  data : Str := []
deriving DecidableEq, Repr

/-- Filesystem: an association list from absolute paths to objects. -/
abbrev FS := List (Str × File)

/-- Lookup of a path (models Lstat and Open). -/
def fsGet : FS → Str → Option File
  | [], _ => none
  | (q, f) :: rest, p => if q = p then some f else fsGet rest p

/-- Removal of a path (models os.Remove). -/
def fsRemove : FS → Str → FS
  | [], _ => []
  | (q, f) :: rest, p => if q = p then fsRemove rest p else (q, f) :: fsRemove rest p

/-- Creation or replacement of a path (models file creation and writes). -/
def fsSet (fs : FS) (p : Str) (f : File) : FS := (p, f) :: fsRemove fs p

/-- Rename of an existing object (models a successful os.Rename). -/
def renameFS (fs : FS) (src dst : Str) : FS :=
  match fsGet fs src with
  | none => fs
  | some f => fsSet (fsRemove fs src) dst f

/-- The trashinfo file written by writeTrashInfo: content plus the 0600
owner-only permission bits passed to os.WriteFile. -/
def writeTrashInfoFile (originalPath : Str) (t : GoTime) : File :=
  { mode := 0o600, data := writeTrashInfoContent originalPath t }

/-- Observable steps of the catalog operations, in execution order. -/
inductive Event where
  | writeInfo (path : Str)
  | moveData (src dst : Str)
  | removeInfo (path : Str)
  | compensateMove (src dst : Str)
deriving DecidableEq, Repr

/-- Existence probe over the modeled filesystem. -/
def fsExists (fs : FS) (p : Str) : Bool := (fsGet fs p).isSome

/-- Trash name chosen by Trash for a path, via generateTrashNameInDir probing
the filesystem state. -/
def trashNameOf (fs : FS) (absPath trashDir randomBytes : Str) : Str :=
  generateTrashNameInDir (fsExists fs) (baseNameOf absPath) trashDir randomBytes

/-- Files path of the chosen trash name. -/
def trashFilesPathOf (fs : FS) (absPath trashDir randomBytes : Str) : Str :=
  join3 trashDir (strBytes "files") (trashNameOf fs absPath trashDir randomBytes)

/-- Info path of the chosen trash name. -/
def trashInfoPathOf (fs : FS) (absPath trashDir randomBytes : Str) : Str :=
  join3 trashDir (strBytes "info")
    (trashNameOf fs absPath trashDir randomBytes ++ strBytes ".trashinfo")



/-- Info path probed by findTrashItem in a trash root for a given name. -/
def infoPathOf (trashDir name : Str) : Str :=
  join3 trashDir (strBytes "info") (name ++ strBytes ".trashinfo")

/-- Files path of an entry of a trash root, as reconstructed by
parseTrashInfo into the item. -/
def filesPathOf (trashDir name : Str) : Str :=
  join3 trashDir (strBytes "files") name

/-- Model of Restore on a name resolved in one trash root: locate and parse
the metadata, fail if the original path is occupied, create parents, move the
data back, then remove the metadata; a failed removal triggers a best-effort
compensating move back into the trash and surfaces the removal error. The
oracles inject failure of mkdir, of the restore move, of the metadata
removal, and of the compensating move. -/
def restoreGo (fs : FS) (trashDir name : Str)
    (mkdirOk renameOk removeOk compensateOk : Bool) :
    Except GoErr Unit × FS × List Event :=
  let infoPath := infoPathOf trashDir name
  match fsGet fs infoPath with
  | none => (.error .fileNotInTrash, fs, [])
  | some f =>
    match parseTrashInfoContent f.data with
    | .error e => (.error e, fs, [])
    | .ok info =>
      let origPath := info.originalPath
      let filePath := filesPathOf trashDir name
      if fsExists fs origPath then (.error .alreadyExists, fs, [])
      else if mkdirOk = false then
        (.error (.wrap "failed to create parent directory" (.io "mkdir")), fs, [])
      else if renameOk = false ∨ fsExists fs filePath = false then
        (.error (.wrap "failed to restore file" (.io "rename")), fs,
          [Event.moveData filePath origPath])
      else
        let fs1 := renameFS fs filePath origPath
        if removeOk then
          (.ok (), fsRemove fs1 infoPath,
            [Event.moveData filePath origPath, Event.removeInfo infoPath])
        else
          let fs2 := if compensateOk then renameFS fs1 origPath filePath else fs1
          (.error (.wrap "failed to remove info file" (.io "remove")), fs2,
            [Event.moveData filePath origPath, Event.removeInfo infoPath,
              Event.compensateMove origPath filePath])

/-- Failure oracle of the cross-device regular-file copy. -/
structure CopyOracle where
  copyOk : Bool := true
  closeOk : Bool := true
  chtimesOk : Bool := true
  removeSrcOk : Bool := true
deriving DecidableEq, Repr

/-- Model of copyFileAcrossDevices: symlinks are recreated with the same
target (timestamps not preserved) and the source removed; regular files are
created exclusively at the destination with the source permission bits, the
bytes copied, the close completed, the modification time copied, and the
source removed, with a failed copy, close or chtimes removing the partial
destination before the error returns. The now parameter stands for the
current time set on freshly created objects. -/
def copyFileAcrossDevices (fs : FS) (src dst : Str) (now : Int) (o : CopyOracle) :
    Except GoErr Unit × FS :=
  match fsGet fs src with
  | none => (.error (.io "open source"), fs)
  | some f =>
    if f.isSymlink then
      if fsExists fs dst then
        (.error (.wrap "failed to create symlink" (.io "symlink")), fs)
      else
        (.ok (), fsRemove
          (fsSet fs dst { isSymlink := true, linkTarget := f.linkTarget, mtime := now })
          src)
    else
      if fsExists fs dst then (.error (.io "open destination exclusive"), fs)
      else
        let fsC := fsSet fs dst { mode := f.mode, mtime := now, data := [] }
        if o.copyOk = false then (.error (.io "copy"), fsRemove fsC dst)
        else
          let fsD := fsSet fsC dst { mode := f.mode, mtime := now, data := f.data }
          if o.closeOk = false then (.error (.io "close"), fsRemove fsD dst)
          else if o.chtimesOk = false then (.error (.io "chtimes"), fsRemove fsD dst)
          else
            let fsT := fsSet fsD dst { mode := f.mode, mtime := f.mtime, data := f.data }
            if o.removeSrcOk = false then (.error (.io "remove source"), fsT)
            else (.ok (), fsRemove fsT src)

/-- Outcome of the os.Rename attempt inside moveToTrash: success, a failure
that isCrossDeviceError recognizes (taking the copy fallback), or any other
rename error (surfaced unchanged, with no mutation). -/
inductive RenameOutcome where
  | ok
  | crossDevice
  | failed
deriving DecidableEq, Repr

/-- Model of moveToTrash: rename first; on a cross-device failure fall back
to the manual copy, which can itself mutate the trash before failing. The
fallback is modeled for non-directory sources through copyFileAcrossDevices
(which handles both symlinks and regular files); the recursive directory
fallback is outside the model — its mid-loop and source-removal failures
leave residues of the same kind as the remove-source residue of the file
fallback proved below. -/
def moveToTrash (fs : FS) (src dst : Str) (_info : File) (ro : RenameOutcome)
    (now : Int) (o : CopyOracle) : Except GoErr Unit × FS :=
  match ro with
  | .ok => (.ok (), renameFS fs src dst)
  | .failed => (.error (.io "rename"), fs)
  | .crossDevice => copyFileAcrossDevices fs src dst now o

/-- Model of Trash on an already-absolute path with the trash root resolved:
stat the source, choose a name, write the metadata record, then move the
data; a failed move removes the just-written record (best-effort) and
surfaces the wrapped move error. The move itself is moveToTrash, whose
cross-device fallback may mutate the trash before failing. -/
def trashGo (fs : FS) (absPath trashDir : Str) (t : GoTime) (randomBytes : Str)
    (writeOk : Bool) (ro : RenameOutcome) (now : Int) (o : CopyOracle) :
    Except GoErr Unit × FS × List Event :=
  match fsGet fs absPath with
  | none => (.error (.wrap "failed to stat file" (.io "lstat")), fs, [])
  | some info =>
    if writeOk = false then
      (.error (.wrap "failed to write trash info" (.io "write")), fs,
        [Event.writeInfo (trashInfoPathOf fs absPath trashDir randomBytes)])
    else
      match moveToTrash
          (fsSet fs (trashInfoPathOf fs absPath trashDir randomBytes)
            (writeTrashInfoFile absPath t))
          absPath (trashFilesPathOf fs absPath trashDir randomBytes) info ro now o with
      | (.ok _, fs2) =>
        (.ok (), fs2,
          [Event.writeInfo (trashInfoPathOf fs absPath trashDir randomBytes),
            Event.moveData absPath (trashFilesPathOf fs absPath trashDir randomBytes)])
      | (.error e, fs2) =>
        (.error (.wrap "failed to move to trash" e),
          fsRemove fs2 (trashInfoPathOf fs absPath trashDir randomBytes),
          [Event.writeInfo (trashInfoPathOf fs absPath trashDir randomBytes),
            Event.moveData absPath (trashFilesPathOf fs absPath trashDir randomBytes)])

/-! ## Empty and List over trash roots -/

/-- Listing of one trash root directory pair: entry names with contents. -/
structure RootDirs where
  filesEnts : List (Str × Str)
  infoEnts : List (Str × Str)
deriving DecidableEq, Repr

/-- Model of emptyDir: remove every entry in order; a removal failure aborts
immediately, leaving that entry and the later ones in place. -/
def emptyEnts : List (Str × Str) → (Str → Bool) → Except GoErr Unit × List (Str × Str)
  | [], _ => (.ok (), [])
  | e :: rest, failRemove =>
    if failRemove e.1 then (.error (.io "remove all"), e :: rest)
    else emptyEnts rest failRemove

/-- Model of emptyTrashDir: empty the files directory, then the info
directory, wrapping an error with the directory context. -/
def emptyTrashDirM (r : RootDirs) (failRemove : Str → Bool) :
    Except GoErr Unit × RootDirs :=
  match emptyEnts r.filesEnts failRemove with
  | (.error e, rem) =>
    (.error (.wrap "failed to empty files directory" e),
      { r with filesEnts := rem })
  | (.ok _, _) =>
    match emptyEnts r.infoEnts failRemove with
    | (.error e, rem) =>
      (.error (.wrap "failed to empty info directory" e),
        { filesEnts := [], infoEnts := rem })
    | (.ok _, _) => (.ok (), { filesEnts := [], infoEnts := [] })

/-- Model of the loop of Empty over the discoverable per-mount roots. -/
def emptyAllM : List RootDirs → (Str → Bool) → Except GoErr Unit × List RootDirs
  | [], _ => (.ok (), [])
  | r :: rest, failRemove =>
    match emptyTrashDirM r failRemove with
    | (.error e, r2) => (.error e, r2 :: rest)
    | (.ok _, r2) =>
      match emptyAllM rest failRemove with
      | (.error e, rest2) => (.error e, r2 :: rest2)
      | (.ok _, rest2) => (.ok (), r2 :: rest2)

/-- Model of Empty: the home root first, then every discoverable per-mount
root, aborting on the first error. -/
def emptyGo (home : RootDirs) (mounts : List RootDirs) (failRemove : Str → Bool) :
    Except GoErr Unit × RootDirs × List RootDirs :=
  match emptyTrashDirM home failRemove with
  | (.error e, h2) => (.error e, h2, mounts)
  | (.ok _, h2) =>
    match emptyAllM mounts failRemove with
    | (.error e, m2) => (.error e, h2, m2)
    | (.ok _, m2) => (.ok (), h2, m2)

/-- Model of listTrashDir: parse each info entry with the trashinfo suffix,
silently skipping entries that fail to parse. -/
def listTrashDirM (r : RootDirs) : List ParsedInfo :=
  r.infoEnts.filterMap (fun e =>
    if hasSuf (strBytes ".trashinfo") e.1 then (parseTrashInfoContent e.2).toOption
    else none)

/-- Model of List: entries of the home root and of every discoverable
per-mount root. -/
def listGo (home : RootDirs) (mounts : List RootDirs) : List ParsedInfo :=
  listTrashDirM home ++ (mounts.map listTrashDirM).flatten

/-! ## The secondary entry point Put (trash underscore linux) -/

/-- Model of filepath.Ext: the suffix starting at the final dot, empty when
there is no dot. -/
def extOf (base : Str) : Str :=
  let t := base.reverse.takeWhile (fun b => decide (b ≠ 46))
  if t.length = base.length then [] else 46 :: t.reverse

/-- Collision loop of uniqueTrashName: insert an underscore and a counter
before the extension until a free destination is found (fuel-bounded here;
the source loop is unbounded). -/
def uniqueLoop (existsAt : Str → Bool) (trashDir nameOnly ext : Str) :
    Nat → Nat → Option Str
  | _, 0 => none
  | i, fuel + 1 =>
    let dest := joinP trashDir (nameOnly ++ [95] ++ decRepr i ++ ext)
    if !(existsAt dest) then some dest
    else uniqueLoop existsAt trashDir nameOnly ext (i + 1) fuel

/-- Model of uniqueTrashName: the bare base name if free, otherwise the
numbered variants before the extension. -/
def uniqueTrashName (existsAt : Str → Bool) (trashDir base : Str) (fuel : Nat) :
    Option Str :=
  let dest := joinP trashDir base
  if !(existsAt dest) then some dest
  else uniqueLoop existsAt trashDir (dropSuf (extOf base) base) (extOf base) 1 fuel

/-- Path of the parent directory (model of filepath.Dir on a clean path). -/
def dirOf (p : Str) : Str :=
  ((p.reverse.dropWhile (fun b => decide (b ≠ 47))).drop 1).reverse

/-- Content written by createTrashInfoFile of the Put path: the original
path written raw (no escaping) and the deletion time in the local zone. -/
def putInfoContent (originalPath : Str) (t : GoTime) : Str :=
  trashInfoHeader ++ [10] ++ pathKey ++ originalPath ++ [10] ++
    dateKey ++ goFormatDateTime t ++ [10]

/-- Info path used by createTrashInfoFile: sibling info directory of the
files directory holding the trashed file. -/
def putInfoPathOf (dest : Str) : Str :=
  joinP (joinP (dirOf (dirOf dest)) (strBytes "info"))
    (baseNameOf dest ++ strBytes ".trashinfo")

/-- Model of Put: stat the source, resolve a unique destination in the files
directory, move the data there, then write the metadata record; a failed
metadata write leaves the moved file in place and returns both the
destination and the error. Returns the pair Go returns. -/
def putGo (fs : FS) (path trashFilesDir : Str) (t : GoTime) (fuel : Nat)
    (renameOk infoWriteOk : Bool) : (Str × Option GoErr) × FS × List Event :=
  match fsGet fs path with
  | none => (([], some (.wrap "trash: cannot trash non-existent file" (.io "stat"))),
      fs, [])
  | some _ =>
    match uniqueTrashName (fsExists fs) trashFilesDir (baseNameOf path) fuel with
    | none => (([], some (.io "model: fuel exhausted")), fs, [])
    | some dest =>
      if renameOk = false then
        (([], some (.wrap "trash: failed to move to trash" (.io "rename"))), fs,
          [Event.moveData path dest])
      else
        let fs1 := renameFS fs path dest
        let infoPath := putInfoPathOf dest
        if infoWriteOk = false then
          ((dest, some (.wrap "trash: file trashed but failed to write .trashinfo"
            (.io "write"))), fs1,
            [Event.moveData path dest, Event.writeInfo infoPath])
        else
          ((dest, none),
            fsSet fs1 infoPath { mode := 0o644, data := putInfoContent path t },
            [Event.moveData path dest, Event.writeInfo infoPath])

/-! ## Supporting lemmas -/

theorem replacePlus_append (s t : Str) :
    replacePlus (s ++ t) = replacePlus s ++ replacePlus t := by
  induction s with
  | nil => rfl
  | cons b r ih => by_cases h : b == 43 <;> simp [replacePlus, h, ih]

theorem replacePlus_queryEscapeByte (b : Nat) :
    replacePlus (queryEscapeByte b) = escByteFinal b := by
  unfold queryEscapeByte escByteFinal
  by_cases h32 : b = 32
  · simp [h32, replacePlus]
  · have hb : (b == 32) = false := by simp [h32]
    by_cases hu : isUnreservedByte b
    · have h43 : b ≠ 43 := by
        intro h; rw [h] at hu; simp [isUnreservedByte] at hu
      simp [hb, hu, replacePlus, h43]
    · have h1 : hexUpper (b / 16) ≠ 43 := by unfold hexUpper; split <;> omega
      have h2 : hexUpper (b % 16) ≠ 43 := by unfold hexUpper; split <;> omega
      simp [hb, hu, replacePlus, h1, h2]

theorem escapePath_eq_flat (p : Str) :
    escapePath p = (p.map escByteFinal).flatten := by
  induction p with
  | nil => rfl
  | cons b r ih =>
    show replacePlus (queryEscapeByte b ++ queryEscape r) = _
    rw [replacePlus_append, replacePlus_queryEscapeByte]
    simpa [escapePath] using congrArg (escByteFinal b ++ ·) ih

theorem fromHexDigit_hexUpper (n : Nat) (h : n < 16) :
    fromHexDigit (hexUpper n) = some n := by
  interval_cases n <;> rfl

theorem escapePath_cons (b : Nat) (p : Str) :
    escapePath (b :: p) = escByteFinal b ++ escapePath p := by
  simp [escapePath_eq_flat]

theorem queryUnescape_other (c : Nat) (rest : Str) (h37 : c ≠ 37) (h43 : c ≠ 43) :
    queryUnescape (c :: rest) = (queryUnescape rest).map (fun t => c :: t) := by
  rw [queryUnescape.eq_def]
  dsimp only
  rw [if_neg h37, if_neg h43]

theorem queryUnescape_pct (a b x y : Nat) (r2 : Str)
    (ha : fromHexDigit a = some x) (hb : fromHexDigit b = some y) :
    queryUnescape (37 :: a :: b :: r2) =
      (queryUnescape r2).map (fun t => (16 * x + y) :: t) := by
  rw [queryUnescape.eq_def]
  simp [ha, hb]

theorem unescape_escape (p : Str) (h : ValidBytes p) :
    queryUnescape (escapePath p) = some p := by
  induction p with
  | nil => rfl
  | cons b r ih =>
    have hb : b < 256 := h b (List.mem_cons_self b r)
    have hr : ValidBytes r := fun x hx => h x (List.mem_cons_of_mem b hx)
    rw [escapePath_cons]
    unfold escByteFinal
    by_cases h32 : b = 32
    · subst h32
      show queryUnescape (37 :: 50 :: 48 :: escapePath r) = some (32 :: r)
      rw [queryUnescape_pct 50 48 2 0 _ rfl rfl, ih hr]
      rfl
    · have hb32 : (b == 32) = false := by simp [h32]
      by_cases hu : isUnreservedByte b
      · have h37 : b ≠ 37 := by
          intro hq; rw [hq] at hu; simp [isUnreservedByte] at hu
        have h43 : b ≠ 43 := by
          intro hq; rw [hq] at hu; simp [isUnreservedByte] at hu
        rw [hb32]
        show queryUnescape ((if isUnreservedByte b then [b]
          else [37, hexUpper (b / 16), hexUpper (b % 16)]) ++ escapePath r) = some (b :: r)
        rw [if_pos hu]
        show queryUnescape (b :: escapePath r) = some (b :: r)
        rw [queryUnescape_other b _ h37 h43, ih hr]
        rfl
      · rw [hb32]
        show queryUnescape ((if isUnreservedByte b then [b]
          else [37, hexUpper (b / 16), hexUpper (b % 16)]) ++ escapePath r) = some (b :: r)
        rw [if_neg hu]
        show queryUnescape (37 :: hexUpper (b / 16) :: hexUpper (b % 16) :: escapePath r)
            = some (b :: r)
        have hdiv : b / 16 < 16 := by omega
        have hmod : b % 16 < 16 := by omega
        rw [queryUnescape_pct _ _ _ _ _ (fromHexDigit_hexUpper _ hdiv)
          (fromHexDigit_hexUpper _ hmod), ih hr]
        have : 16 * (b / 16) + b % 16 = b := by omega
        rw [this]
        rfl

theorem hexUpper_range (n : Nat) (h : n < 16) :
    (48 ≤ hexUpper n ∧ hexUpper n ≤ 57) ∨ (65 ≤ hexUpper n ∧ hexUpper n ≤ 70) := by
  unfold hexUpper; split <;> omega

theorem escByteFinal_mem (b x : Nat) (hb : b < 256) (hx : x ∈ escByteFinal b) :
    (isUnreservedByte x = true ∧ x = b) ∨ x = 37 ∨ (48 ≤ x ∧ x ≤ 57) ∨
      (65 ≤ x ∧ x ≤ 70) := by
  unfold escByteFinal at hx
  split at hx
  · simp only [List.mem_cons, List.not_mem_nil, or_false] at hx
    rcases hx with rfl | rfl | rfl
    · exact Or.inr (Or.inl rfl)
    · exact Or.inr (Or.inr (Or.inl (by omega)))
    · exact Or.inr (Or.inr (Or.inl (by omega)))
  · split at hx
    · rename_i hu
      simp only [List.mem_singleton] at hx
      subst hx
      exact Or.inl ⟨hu, rfl⟩
    · have hd : b / 16 < 16 := by omega
      have hm : b % 16 < 16 := by omega
      simp only [List.mem_cons, List.not_mem_nil, or_false] at hx
      rcases hx with rfl | rfl | rfl
      · exact Or.inr (Or.inl rfl)
      · rcases hexUpper_range _ hd with hr | hr
        · exact Or.inr (Or.inr (Or.inl hr))
        · exact Or.inr (Or.inr (Or.inr hr))
      · rcases hexUpper_range _ hm with hr | hr
        · exact Or.inr (Or.inr (Or.inl hr))
        · exact Or.inr (Or.inr (Or.inr hr))

theorem escapePath_mem (p : Str) (x : Nat) (hp : ValidBytes p) (hx : x ∈ escapePath p) :
    isUnreservedByte x = true ∨ x = 37 ∨ (48 ≤ x ∧ x ≤ 57) ∨ (65 ≤ x ∧ x ≤ 70) := by
  rw [escapePath_eq_flat] at hx
  rw [List.mem_flatten] at hx
  obtain ⟨l, hl, hxl⟩ := hx
  rw [List.mem_map] at hl
  obtain ⟨b, hbp, rfl⟩ := hl
  rcases escByteFinal_mem b x (hp b hbp) hxl with ⟨h, _⟩ | h | h | h
  · exact Or.inl h
  · exact Or.inr (Or.inl h)
  · exact Or.inr (Or.inr (Or.inl h))
  · exact Or.inr (Or.inr (Or.inr h))

theorem escapePath_no_nl (p : Str) (hp : ValidBytes p) : 10 ∉ escapePath p := by
  intro hmem
  rcases escapePath_mem p 10 hp hmem with h | h | h | h
  · simp [isUnreservedByte] at h
  all_goals omega

theorem escapePath_no_plus (p : Str) (hp : ValidBytes p) : 43 ∉ escapePath p := by
  intro hmem
  rcases escapePath_mem p 43 hp hmem with h | h | h | h
  · simp [isUnreservedByte] at h
  all_goals omega

theorem digitVal_digit (d : Nat) (h : d ≤ 9) : digitVal (48 + d) = some d := by
  unfold digitVal
  rw [if_pos (by omega)]
  congr 1
  omega

theorem read2_pad2 (n : Nat) (h : n ≤ 99) :
    read2 (48 + n / 10 % 10) (48 + n % 10) = some n := by
  unfold read2
  rw [digitVal_digit _ (by omega), digitVal_digit _ (by omega)]
  dsimp only
  have h2 : 10 * (n / 10 % 10) + n % 10 = n := by omega
  rw [h2]

theorem read4_pad4 (n : Nat) (h : n ≤ 9999) :
    read4 (48 + n / 1000 % 10) (48 + n / 100 % 10) (48 + n / 10 % 10) (48 + n % 10)
      = some n := by
  unfold read4
  rw [digitVal_digit _ (by omega), digitVal_digit _ (by omega),
    digitVal_digit _ (by omega), digitVal_digit _ (by omega)]
  dsimp only
  have h2 : 1000 * (n / 1000 % 10) + 100 * (n / 100 % 10) + 10 * (n / 10 % 10) + n % 10
      = n := by omega
  rw [h2]

theorem daysInMonth_le (y : Int) (m : Nat) : daysInMonth y m ≤ 31 := by
  unfold daysInMonth
  split_ifs <;> omega

theorem parse_render (c : Civil) (h : civilValid c = true) :
    parseDateTime (renderCivil c) = some c := by
  simp only [civilValid, Bool.and_eq_true, decide_eq_true_eq] at h
  obtain ⟨⟨⟨⟨⟨⟨⟨⟨hy0, hy1⟩, hm1⟩, hm2⟩, hd1⟩, hd2⟩, hh⟩, hmi⟩, hs⟩ := h
  have hdim : daysInMonth c.year c.month ≤ 31 := daysInMonth_le c.year c.month
  have hyn : c.year.toNat ≤ 9999 := by omega
  show parseDateTime ((48 + c.year.toNat / 1000 % 10) :: (48 + c.year.toNat / 100 % 10) ::
    (48 + c.year.toNat / 10 % 10) :: (48 + c.year.toNat % 10) :: 45 ::
    (48 + c.month / 10 % 10) :: (48 + c.month % 10) :: 45 ::
    (48 + c.day / 10 % 10) :: (48 + c.day % 10) :: 84 ::
    (48 + c.hour / 10 % 10) :: (48 + c.hour % 10) :: 58 ::
    (48 + c.minute / 10 % 10) :: (48 + c.minute % 10) :: 58 ::
    (48 + c.second / 10 % 10) :: [48 + c.second % 10]) = some c
  rw [parseDateTime.eq_def]
  dsimp only
  rw [if_pos (⟨rfl, rfl, rfl, rfl, rfl⟩ : (45 : Nat) = 45 ∧ (45 : Nat) = 45 ∧
    (84 : Nat) = 84 ∧ (58 : Nat) = 58 ∧ (58 : Nat) = 58)]
  rw [read4_pad4 _ hyn, read2_pad2 _ (by omega), read2_pad2 _ (by omega),
    read2_pad2 _ (by omega), read2_pad2 _ (by omega), read2_pad2 _ (by omega)]
  dsimp only
  have hyc : ((c.year.toNat : Nat) : Int) = c.year := Int.toNat_of_nonneg hy0
  rw [if_pos (by rw [hyc]; exact ⟨hm1, hm2, hd1, hd2, hh, hmi, hs⟩)]
  rw [Option.some.injEq]
  cases c
  simp only at hyc ⊢
  rw [hyc]

theorem renderCivil_len (c : Civil) : (renderCivil c).length = 19 := by
  simp [renderCivil, pad2, pad4]

theorem renderCivil_mem (c : Civil) (x : Nat) (hx : x ∈ renderCivil c) :
    (48 ≤ x ∧ x ≤ 57) ∨ x = 45 ∨ x = 84 ∨ x = 58 := by
  simp only [renderCivil, pad2, pad4, List.append_assoc, List.mem_append,
    List.mem_cons, List.mem_singleton, List.not_mem_nil, or_false] at hx
  rcases hx with (h | h | h | h) | h | (h | h) | h | (h | h) | h | (h | h) | h |
    (h | h) | h | (h | h) <;> subst h <;> omega

theorem renderCivil_no_nl (c : Civil) : 10 ∉ renderCivil c := by
  intro hmem
  rcases renderCivil_mem c 10 hmem with h | h | h | h <;> omega

theorem splitOnNl_ne_nil (s : Str) : splitOnNl s ≠ [] := by
  match s with
  | [] => simp [splitOnNl]
  | c :: rest =>
    rw [splitOnNl]
    split
    · simp
    · cases h : splitOnNl rest <;> simp

theorem splitOnNl_no_nl (a : Str) (ha : 10 ∉ a) : splitOnNl a = [a] := by
  induction a with
  | nil => rfl
  | cons c r ih =>
    have hc : c ≠ 10 := fun h => ha (h ▸ List.mem_cons_self c r)
    have hr : 10 ∉ r := fun h => ha (List.mem_cons_of_mem c h)
    rw [splitOnNl, if_neg hc, ih hr]

theorem splitOnNl_append (a b : Str) (ha : 10 ∉ a) :
    splitOnNl (a ++ 10 :: b) = a :: splitOnNl b := by
  induction a with
  | nil => simp [splitOnNl]
  | cons c r ih =>
    have hc : c ≠ 10 := fun h => ha (h ▸ List.mem_cons_self c r)
    have hr : 10 ∉ r := fun h => ha (List.mem_cons_of_mem c h)
    rw [List.cons_append, splitOnNl, if_neg hc, ih hr]

theorem hasPre_of_append (pre t : Str) : hasPre pre (pre ++ t) = true := by
  induction pre with
  | nil => simp [hasPre, List.isPrefixOf]
  | cons c r ih => simp [hasPre, List.isPrefixOf]

theorem dropPre_of_append (pre t : Str) : dropPre pre (pre ++ t) = t := by
  rw [dropPre, if_pos (hasPre_of_append pre t)]
  exact List.drop_left pre t

theorem hasPre_ne_of_heads (a b : Nat) (p2 s2 : Str) (h : a ≠ b) :
    hasPre (a :: p2) (b :: s2) = false := by
  simp [hasPre, List.isPrefixOf, h]

theorem hasPre_nil (a : Nat) (p2 : Str) : hasPre (a :: p2) [] = false := rfl

theorem writeContent_split (p : Str) (hp : ValidBytes p) (t : GoTime) :
    splitOnNl (writeTrashInfoContent p t) =
      [trashInfoHeader, pathKey ++ escapePath p,
        dateKey ++ goFormatDateTime (utcOf t), []] := by
  have h1 : 10 ∉ trashInfoHeader := by decide
  have h2 : 10 ∉ pathKey ++ escapePath p := by
    intro hmem
    rcases List.mem_append.mp hmem with h | h
    · revert h; decide
    · exact escapePath_no_nl p hp h
  have hfmt : goFormatDateTime (utcOf t) = renderCivil t.utc := rfl
  have h3 : 10 ∉ dateKey ++ goFormatDateTime (utcOf t) := by
    intro hmem
    rcases List.mem_append.mp hmem with h | h
    · revert h; decide
    · rw [hfmt] at h
      exact renderCivil_no_nl t.utc h
  have hshape : writeTrashInfoContent p t =
      trashInfoHeader ++ 10 :: ((pathKey ++ escapePath p) ++ 10 ::
        ((dateKey ++ goFormatDateTime (utcOf t)) ++ 10 :: ([] : Str))) := by
    simp [writeTrashInfoContent, List.append_assoc]
  rw [hshape, splitOnNl_append _ _ h1, splitOnNl_append _ _ h2,
    splitOnNl_append _ _ h3]
  rfl

theorem parseLoop_keeps_zero (ls : List Str) (op : Str)
    (h : ∀ l ∈ ls, hasPre dateKey l = true → parseDateTime (dropPre dateKey l) = none) :
    (parseLoop ls op zeroCivil).2 = zeroCivil := by
  induction ls generalizing op with
  | nil => rfl
  | cons l rest ih =>
    have hrest : ∀ x ∈ rest, hasPre dateKey x = true →
        parseDateTime (dropPre dateKey x) = none :=
      fun x hx => h x (List.mem_cons_of_mem l hx)
    rw [parseLoop]
    split
    · exact ih _ hrest
    · split
      · rename_i hd
        rw [h l (List.mem_cons_self l rest) hd]
        exact ih _ hrest
      · exact ih _ hrest

theorem fsGet_remove (fs : FS) (p q : Str) :
    fsGet (fsRemove fs p) q = if q = p then none else fsGet fs q := by
  induction fs with
  | nil => simp [fsRemove, fsGet]
  | cons e rest ih =>
    obtain ⟨a, f⟩ := e
    rw [fsRemove]
    by_cases hap : a = p
    · rw [if_pos hap, ih]
      by_cases hqp : q = p
      · simp [hqp]
      · rw [if_neg hqp, if_neg hqp, fsGet]
        rw [if_neg (by rw [hap]; exact fun e => hqp e.symm)]
    · rw [if_neg hap, fsGet, fsGet]
      by_cases hqa : a = q
      · subst hqa
        rw [if_pos rfl, if_pos rfl, if_neg (fun e => hap e)]
      · rw [if_neg hqa, if_neg hqa, ih]

theorem fsGet_set_self (fs : FS) (p : Str) (f : File) :
    fsGet (fsSet fs p f) p = some f := by
  simp [fsSet, fsGet]

theorem fsGet_set_other (fs : FS) (p q : Str) (f : File) (h : q ≠ p) :
    fsGet (fsSet fs p f) q = fsGet fs q := by
  simp only [fsSet, fsGet]
  rw [if_neg (fun e => h e.symm), fsGet_remove, if_neg h]

theorem hexEncode_len (s : Str) : (hexEncode s).length = 2 * s.length := by
  induction s with
  | nil => rfl
  | cons b r ih => simp [hexEncode, ih]; omega

theorem genLoop_first (existsAt : Str → Bool) (trashDir base : Str) (k i fuel : Nat)
    (hk : k < fuel)
    (hfree : nameFree existsAt trashDir (candidateName base (i + k)) = true)
    (hbusy : ∀ j, j < k → nameFree existsAt trashDir (candidateName base (i + j)) = false) :
    genLoop existsAt trashDir base fuel i = some (candidateName base (i + k)) := by
  induction k generalizing i fuel with
  | zero =>
    match fuel, hk with
    | f + 1, _ =>
      simp only [Nat.add_zero] at hfree ⊢
      rw [genLoop, if_pos hfree]
  | succ k ih =>
    match fuel, hk with
    | f + 1, hk =>
      rw [genLoop]
      have h0 : nameFree existsAt trashDir (candidateName base i) = false := by
        have := hbusy 0 (Nat.succ_pos k)
        simpa using this
      rw [if_neg (by simp [h0])]
      have hfree2 : nameFree existsAt trashDir (candidateName base (i + 1 + k)) = true := by
        have : i + 1 + k = i + (k + 1) := by omega
        rw [this]; exact hfree
      have hbusy2 : ∀ j, j < k →
          nameFree existsAt trashDir (candidateName base (i + 1 + j)) = false := by
        intro j hj
        have : i + 1 + j = i + (j + 1) := by omega
        rw [this]
        exact hbusy (j + 1) (by omega)
      have := ih (i + 1) f (by omega) hfree2 hbusy2
      rw [this]
      congr 1
      congr 1
      omega

theorem genLoop_none (existsAt : Str → Bool) (trashDir base : Str) (fuel i : Nat)
    (h : ∀ j, j < fuel → nameFree existsAt trashDir (candidateName base (i + j)) = false) :
    genLoop existsAt trashDir base fuel i = none := by
  induction fuel generalizing i with
  | zero => rfl
  | succ f ih =>
    rw [genLoop]
    have h0 : nameFree existsAt trashDir (candidateName base i) = false := by
      simpa using h 0 (Nat.succ_pos f)
    rw [if_neg (by simp [h0])]
    exact ih (i + 1) (fun j hj => by
      have : i + 1 + j = i + (j + 1) := by omega
      rw [this]
      exact h (j + 1) (by omega))

/-- C4: name generation first sanitizes the base name (the empty name maps to
a fixed placeholder and the single-dot name to a distinct one), then returns
the first candidate of the bare sanitized name followed by the dot-numbered
variants 1 to 99 (100 attempts) for which neither the files entry nor the
info entry exists; when all 100 are taken it falls back to the sanitized name
with a dot and the 16-digit hex encoding of the 8 random bytes, without
re-checking existence. -/
theorem claim_C4_name_generation (existsAt : Str → Bool)
    (baseName trashDir randomBytes : Str) :
    (sanitizeFilename [] = strBytes "unnamed" ∧
      sanitizeFilename (strBytes ".") = strBytes "dot" ∧
      strBytes "dot" ≠ strBytes "unnamed") ∧
    (∀ k, k < 100 →
      nameFree existsAt trashDir (candidateName (sanitizeFilename baseName) k) = true →
      (∀ j, j < k →
        nameFree existsAt trashDir (candidateName (sanitizeFilename baseName) j) = false) →
      generateTrashNameInDir existsAt baseName trashDir randomBytes =
        candidateName (sanitizeFilename baseName) k) ∧
    ((∀ j, j < 100 →
      nameFree existsAt trashDir (candidateName (sanitizeFilename baseName) j) = false) →
      generateTrashNameInDir existsAt baseName trashDir randomBytes =
        sanitizeFilename baseName ++ [46] ++ hexEncode randomBytes ∧
      (randomBytes.length = 8 → (hexEncode randomBytes).length = 16)) := by
  refine ⟨⟨by decide, by decide, by decide⟩, ?_, ?_⟩
  · intro k hk hfree hbusy
    unfold generateTrashNameInDir
    have hg := genLoop_first existsAt trashDir (sanitizeFilename baseName) k 0 100 hk
      (by simpa using hfree) (fun j hj => by simpa using hbusy j hj)
    simp only [Nat.zero_add] at hg
    rw [hg]
  · intro h
    constructor
    · unfold generateTrashNameInDir
      have hg := genLoop_none existsAt trashDir (sanitizeFilename baseName) 100 0
        (fun j hj => by simpa using h j hj)
      rw [hg]
    · intro hlen
      rw [hexEncode_len, hlen]

/-- Witness for C4 at concrete inputs: on an empty root every probe is free,
so the first candidate (the bare sanitized name) is chosen; and under an
always-taken probe the random fallback is produced. -/
theorem claim_C4_name_generation_witness :
    generateTrashNameInDir (fun _ => false) (strBytes "duplicate.txt")
        (strBytes "/tm") (strBytes "abcdefgh") = strBytes "duplicate.txt" ∧
    generateTrashNameInDir (fun _ => true) (strBytes "duplicate.txt")
        (strBytes "/tm") (strBytes "abcdefgh") =
      strBytes "duplicate.txt" ++ [46] ++ hexEncode (strBytes "abcdefgh") := by
  constructor
  · have h := (claim_C4_name_generation (fun _ => false) (strBytes "duplicate.txt")
      (strBytes "/tm") (strBytes "abcdefgh")).2.1 0 (by omega) (by decide)
      (fun j hj => absurd hj (Nat.not_lt_zero j))
    rw [h]
    decide
  · exact ((claim_C4_name_generation (fun _ => true) (strBytes "duplicate.txt")
      (strBytes "/tm") (strBytes "abcdefgh")).2.2 (fun j hj => rfl)).1

theorem hasPre_path_dateKey (x : Str) : hasPre pathKey (dateKey ++ x) = false := by
  show hasPre (80 :: strBytes "ath=") ((68 :: strBytes "eletionDate=") ++ x) = false
  rw [List.cons_append]
  exact hasPre_ne_of_heads 80 68 _ _ (by omega)

theorem hasPre_pathKey_nil : hasPre pathKey [] = false := by
  show hasPre (80 :: strBytes "ath=") [] = false
  exact hasPre_nil 80 _

theorem hasPre_dateKey_nil : hasPre dateKey [] = false := by
  show hasPre (68 :: strBytes "eletionDate=") [] = false
  exact hasPre_nil 68 _

theorem parseLoop_write (p : Str) (hp : ValidBytes p) (t : GoTime)
    (hv : civilValid t.utc = true) :
    parseLoop [pathKey ++ escapePath p, dateKey ++ goFormatDateTime (utcOf t), []]
      [] zeroCivil = (p, t.utc) := by
  rw [parseLoop, if_pos (hasPre_of_append pathKey (escapePath p))]
  rw [dropPre_of_append, unescape_escape p hp]
  rw [parseLoop, if_neg (by rw [hasPre_path_dateKey]; exact Bool.false_ne_true)]
  rw [if_pos (hasPre_of_append dateKey (goFormatDateTime (utcOf t)))]
  rw [dropPre_of_append]
  have hfmt : goFormatDateTime (utcOf t) = renderCivil t.utc := rfl
  rw [hfmt, parse_render t.utc hv]
  rw [parseLoop, if_neg (by rw [hasPre_pathKey_nil]; exact Bool.false_ne_true),
    if_neg (by rw [hasPre_dateKey_nil]; exact Bool.false_ne_true)]
  rw [parseLoop]
  rfl

/-- C8: for every entry produced by Trash on a nonempty absolute path of
bytes, parsing the serialized metadata yields exactly the original path back
(spaces, percent signs and all other bytes round-trip through the escaping),
and the deletion time parses back to the very civil second of the wall-clock
timestamp passed by Trash, the sub-second nanoseconds dropped, hence within
one second of the wall-clock time of the call. -/
theorem claim_C8_metadata_roundtrip (p : Str) (hp : ValidBytes p) (hne : p ≠ [])
    (t : GoTime) (hv : civilValid t.utc = true) :
    parseTrashInfoContent (writeTrashInfoContent p t) =
      .ok ⟨p, t.utc⟩ := by
  unfold parseTrashInfoContent
  rw [writeContent_split p hp t]
  rw [if_neg (by simp)]
  rw [List.tail_cons, parseLoop_write p hp t hv]
  simp [hne]

/-- Witness for C8 at a concrete path containing a space, a percent sign and
a plus, and a concrete timestamp with nonzero nanoseconds and offset. -/
theorem claim_C8_metadata_roundtrip_witness :
    parseTrashInfoContent (writeTrashInfoContent (strBytes "/tmp/a b%c+d.txt")
        ⟨⟨2024, 2, 29, 23, 59, 58⟩, 123456789, 120⟩) =
      .ok ⟨strBytes "/tmp/a b%c+d.txt", ⟨2024, 2, 29, 23, 59, 58⟩⟩ :=
  claim_C8_metadata_roundtrip (strBytes "/tmp/a b%c+d.txt") (by decide) (by decide)
    ⟨⟨2024, 2, 29, 23, 59, 58⟩, 123456789, 120⟩ (by decide)

/-- C2 (amended): writeTrashInfo serializes exactly a three-line record (the
literal header line, the path percent-escaped with space as the
percent-two-zero triple and never a plus, and the deletion time), the file
carries owner-only 0600 permissions, and the deletion time is rendered from
the UTC view of the timestamp — not the local zone — truncated to whole
seconds with no timezone offset (a fixed 19-byte layout). -/
theorem claim_C2_serialization (p : Str) (hp : ValidBytes p) (t : GoTime) :
    splitOnNl (writeTrashInfoContent p t) =
      [trashInfoHeader, pathKey ++ escapePath p,
        dateKey ++ renderCivil t.utc, []] ∧
    escapePath p = (p.map escByteFinal).flatten ∧
    escByteFinal 32 = strBytes "%20" ∧
    43 ∉ escapePath p ∧
    goFormatDateTime (utcOf t) = renderCivil t.utc ∧
    (∀ n, writeTrashInfoContent p { t with nanos := n } = writeTrashInfoContent p t) ∧
    (renderCivil t.utc).length = 19 ∧
    (writeTrashInfoFile p t).mode = 0o600 := by
  refine ⟨?_, escapePath_eq_flat p, by decide, escapePath_no_plus p hp, rfl,
    fun n => rfl, renderCivil_len t.utc, rfl⟩
  have h := writeContent_split p hp t
  rw [h]
  rfl

/-- Witness for C2 at a concrete path with a space and a concrete timestamp. -/
theorem claim_C2_serialization_witness :
    splitOnNl (writeTrashInfoContent (strBytes "/tmp/a b")
        ⟨⟨2024, 5, 6, 7, 8, 9⟩, 123, 120⟩) =
      [trashInfoHeader, pathKey ++ escapePath (strBytes "/tmp/a b"),
        dateKey ++ renderCivil ⟨2024, 5, 6, 7, 8, 9⟩, []] ∧
    (writeTrashInfoFile (strBytes "/tmp/a b") ⟨⟨2024, 5, 6, 7, 8, 9⟩, 123, 120⟩).mode
      = 0o600 :=
  ⟨(claim_C2_serialization (strBytes "/tmp/a b") (by decide)
      ⟨⟨2024, 5, 6, 7, 8, 9⟩, 123, 120⟩).1,
    (claim_C2_serialization (strBytes "/tmp/a b") (by decide)
      ⟨⟨2024, 5, 6, 7, 8, 9⟩, 123, 120⟩).2.2.2.2.2.2.2⟩

/-- Counterexample to C2 as stated: the claim says the deletion time is
formatted as local time, but writeTrashInfo formats the UTC view. At a
timestamp whose zone is one hour east of UTC (offset 60 minutes), the date
line actually written carries the UTC rendering, which differs from the
rendering of the same instant in its local zone. -/
theorem claim_C2_counterexample :
    splitOnNl (writeTrashInfoContent (strBytes "/x")
        ⟨⟨2024, 5, 6, 12, 0, 0⟩, 0, 60⟩) =
      [trashInfoHeader, pathKey ++ escapePath (strBytes "/x"),
        dateKey ++ renderCivil ⟨2024, 5, 6, 12, 0, 0⟩, []] ∧
    goFormatDateTime ⟨⟨2024, 5, 6, 12, 0, 0⟩, 0, 60⟩ =
      renderCivil ⟨2024, 5, 6, 13, 0, 0⟩ ∧
    dateKey ++ renderCivil ⟨2024, 5, 6, 12, 0, 0⟩ ≠
      dateKey ++ goFormatDateTime ⟨⟨2024, 5, 6, 12, 0, 0⟩, 0, 60⟩ := by
  refine ⟨by decide, by decide, by decide⟩

/-- C5: parsing the metadata content fails with the invalid-trashinfo error
exactly when the content has fewer than three lines, the first line differs
from the header, or the path field is absent or unparsable (the extraction
loop ends with an empty path); otherwise parsing succeeds whatever the date
field holds, and when every date field present fails to parse the resulting
timestamp is the zero time. -/
theorem claim_C5_parse_errors (content : Str) :
    (parseTrashInfoContent content = .error .invalidTrashInfo ↔
      ((splitOnNl content).length < 3 ∨
        (splitOnNl content).head? ≠ some trashInfoHeader ∨
        (parseLoop (splitOnNl content).tail [] zeroCivil).1 = [])) ∧
    ((¬ ((splitOnNl content).length < 3 ∨
        (splitOnNl content).head? ≠ some trashInfoHeader ∨
        (parseLoop (splitOnNl content).tail [] zeroCivil).1 = [])) →
      parseTrashInfoContent content =
        .ok ⟨(parseLoop (splitOnNl content).tail [] zeroCivil).1,
          (parseLoop (splitOnNl content).tail [] zeroCivil).2⟩) ∧
    ((∀ l ∈ (splitOnNl content).tail, hasPre dateKey l = true →
        parseDateTime (dropPre dateKey l) = none) →
      (parseLoop (splitOnNl content).tail [] zeroCivil).2 = zeroCivil) := by
  refine ⟨?_, ?_, parseLoop_keeps_zero _ []⟩
  · unfold parseTrashInfoContent
    split_ifs with h1 h2
    · constructor
      · intro _
        rcases h1 with h | h
        · exact Or.inl h
        · exact Or.inr (Or.inl h)
      · intro _; rfl
    · constructor
      · intro _
        exact Or.inr (Or.inr h2)
      · intro _; rfl
    · constructor
      · intro h; exact absurd h (by simp)
      · intro hr
        rcases hr with h | h | h
        · exact absurd (Or.inl h) h1
        · exact absurd (Or.inr h) h1
        · exact absurd h h2
  · intro hgood
    unfold parseTrashInfoContent
    rw [if_neg (fun h => hgood (h.elim Or.inl (fun h2 => Or.inr (Or.inl h2))))]
    rw [if_neg (fun h => hgood (Or.inr (Or.inr h)))]

/-- Witness for C5: a record with an unparsable date still parses (with the
zero timestamp), and a record whose path field is missing fails with the
invalid-trashinfo error. -/
theorem claim_C5_parse_errors_witness :
    parseTrashInfoContent
        (strBytes "[Trash Info]\nPath=abc\nDeletionDate=nonsense\n") =
      .ok ⟨strBytes "abc", zeroCivil⟩ ∧
    parseTrashInfoContent (strBytes "[Trash Info]\nDeletionDate=x\nstuff\n") =
      .error .invalidTrashInfo := by
  constructor
  · have h := (claim_C5_parse_errors
      (strBytes "[Trash Info]\nPath=abc\nDeletionDate=nonsense\n")).2.1 (by decide)
    rw [h]
    rfl
  · exact (claim_C5_parse_errors
      (strBytes "[Trash Info]\nDeletionDate=x\nstuff\n")).1.mpr (by decide)

theorem renameFS_some (fs : FS) (src dst : Str) (f : File)
    (h : fsGet fs src = some f) :
    renameFS fs src dst = fsSet (fsRemove fs src) dst f := by
  rw [renameFS, h]

theorem copyFile_removeSrc_fail (fs : FS) (src dst : Str) (now : Int) (f : File)
    (hsrc : fsGet fs src = some f) (hsym : f.isSymlink = false)
    (hdst : fsExists fs dst = false) :
    copyFileAcrossDevices fs src dst now ⟨true, true, true, false⟩ =
      (.error (.io "remove source"),
        fsSet (fsSet (fsSet fs dst { mode := f.mode, mtime := now, data := [] }) dst
          { mode := f.mode, mtime := now, data := f.data }) dst
          { mode := f.mode, mtime := f.mtime, data := f.data }) := by
  unfold copyFileAcrossDevices
  simp only [hsrc, hsym]
  rw [if_neg Bool.false_ne_true]
  rw [hdst]
  rw [if_neg Bool.false_ne_true]
  rfl

/-- C1 (amended): Trash writes the metadata record before the data move is
attempted (whenever the move event appears in the trace, the write event is
at its head); every move failure deletes the just-written metadata file and
reports the wrapped move error; a plain (non cross-device) rename failure
leaves the trash root without a data object and the source untouched; but
the cross-device fallback can fail after populating the destination — when
source removal fails after a complete copy, the trash root is left holding
the full data object with no metadata record. Scoped to non-directory
sources; the unmodeled directory fallback leaves residues of the same
kind. -/
theorem claim_C1_metadata_first (fs : FS) (absPath trashDir : Str) (t : GoTime)
    (randomBytes : Str) (writeOk : Bool) (ro : RenameOutcome) (now : Int)
    (o : CopyOracle) (f : File)
    (hsrc : fsGet fs absPath = some f)
    (_hdir : f.isDir = false)
    (hinfo_ne : trashInfoPathOf fs absPath trashDir randomBytes ≠ absPath)
    (hfi_ne : trashFilesPathOf fs absPath trashDir randomBytes ≠
      trashInfoPathOf fs absPath trashDir randomBytes)
    (hfa_ne : absPath ≠ trashFilesPathOf fs absPath trashDir randomBytes)
    (hfiles_free : fsGet fs (trashFilesPathOf fs absPath trashDir randomBytes) = none) :
    (∀ s d, Event.moveData s d ∈
        (trashGo fs absPath trashDir t randomBytes writeOk ro now o).2.2 →
      ((trashGo fs absPath trashDir t randomBytes writeOk ro now o).2.2).head? =
        some (Event.writeInfo (trashInfoPathOf fs absPath trashDir randomBytes))) ∧
    (writeOk = true → ∀ e,
      (trashGo fs absPath trashDir t randomBytes writeOk ro now o).1 = .error e →
      (∃ inner, e = .wrap "failed to move to trash" inner) ∧
      fsGet (trashGo fs absPath trashDir t randomBytes writeOk ro now o).2.1
        (trashInfoPathOf fs absPath trashDir randomBytes) = none) ∧
    (writeOk = true → ro = .failed →
      (trashGo fs absPath trashDir t randomBytes writeOk ro now o).1 =
        .error (.wrap "failed to move to trash" (.io "rename")) ∧
      fsGet (trashGo fs absPath trashDir t randomBytes writeOk ro now o).2.1
        (trashFilesPathOf fs absPath trashDir randomBytes) = none ∧
      fsGet (trashGo fs absPath trashDir t randomBytes writeOk ro now o).2.1 absPath
        = some f) ∧
    (writeOk = true → ro = .crossDevice → f.isSymlink = false →
      o = ⟨true, true, true, false⟩ →
      (trashGo fs absPath trashDir t randomBytes writeOk ro now o).1 =
        .error (.wrap "failed to move to trash" (.io "remove source")) ∧
      fsGet (trashGo fs absPath trashDir t randomBytes writeOk ro now o).2.1
        (trashInfoPathOf fs absPath trashDir randomBytes) = none ∧
      fsGet (trashGo fs absPath trashDir t randomBytes writeOk ro now o).2.1
        (trashFilesPathOf fs absPath trashDir randomBytes) =
        some { isDir := false, isSymlink := false, linkTarget := [],
               mode := f.mode, mtime := f.mtime, data := f.data } ∧
      fsGet (trashGo fs absPath trashDir t randomBytes writeOk ro now o).2.1 absPath
        = some f) := by
  refine ⟨?_, ?_, ?_, ?_⟩
  · unfold trashGo
    simp only [hsrc]
    cases writeOk with
    | false =>
      intro s d hmem
      simp at hmem
    | true =>
      obtain ⟨res, fsM⟩ := moveToTrash
        (fsSet fs (trashInfoPathOf fs absPath trashDir randomBytes)
          (writeTrashInfoFile absPath t))
        absPath (trashFilesPathOf fs absPath trashDir randomBytes) f ro now o
      cases res <;> exact fun s d hmem => rfl
  · intro hw
    subst hw
    unfold trashGo
    simp only [hsrc]
    rw [if_neg (by decide : ¬ ((true : Bool) = false))]
    obtain ⟨res, fsM⟩ := moveToTrash
      (fsSet fs (trashInfoPathOf fs absPath trashDir randomBytes)
        (writeTrashInfoFile absPath t))
      absPath (trashFilesPathOf fs absPath trashDir randomBytes) f ro now o
    cases res with
    | ok u =>
      intro e hr
      exact absurd hr (by simp)
    | error e0 =>
      intro e hr
      dsimp only at hr
      rw [Except.error.injEq] at hr
      subst hr
      exact ⟨⟨e0, rfl⟩, by rw [fsGet_remove, if_pos rfl]⟩
  · intro hw hro
    subst hw
    subst hro
    unfold trashGo moveToTrash
    simp only [hsrc]
    refine ⟨rfl, ?_, ?_⟩
    · show fsGet (fsRemove (fsSet fs (trashInfoPathOf fs absPath trashDir randomBytes)
        (writeTrashInfoFile absPath t)) (trashInfoPathOf fs absPath trashDir randomBytes))
        (trashFilesPathOf fs absPath trashDir randomBytes) = none
      rw [fsGet_remove, if_neg hfi_ne, fsGet_set_other _ _ _ _ hfi_ne, hfiles_free]
    · show fsGet (fsRemove (fsSet fs (trashInfoPathOf fs absPath trashDir randomBytes)
        (writeTrashInfoFile absPath t)) (trashInfoPathOf fs absPath trashDir randomBytes))
        absPath = some f
      rw [fsGet_remove, if_neg (fun e => hinfo_ne e.symm),
        fsGet_set_other _ _ _ _ (fun e => hinfo_ne e.symm), hsrc]
  · intro hw hro hsym ho
    subst hw
    subst hro
    subst ho
    have hget1 : fsGet (fsSet fs (trashInfoPathOf fs absPath trashDir randomBytes)
        (writeTrashInfoFile absPath t)) absPath = some f := by
      rw [fsGet_set_other _ _ _ _ (fun e => hinfo_ne e.symm)]
      exact hsrc
    have hdst1 : fsExists (fsSet fs (trashInfoPathOf fs absPath trashDir randomBytes)
        (writeTrashInfoFile absPath t))
        (trashFilesPathOf fs absPath trashDir randomBytes) = false := by
      rw [fsExists, fsGet_set_other _ _ _ _ hfi_ne, hfiles_free]
      rfl
    unfold trashGo moveToTrash
    simp only [hsrc]
    rw [if_neg (by decide : ¬ ((true : Bool) = false))]
    rw [copyFile_removeSrc_fail _ _ _ now f hget1 hsym hdst1]
    dsimp only
    refine ⟨rfl, ?_, ?_, ?_⟩
    · rw [fsGet_remove, if_pos rfl]
    · rw [fsGet_remove, if_neg hfi_ne, fsGet_set_self]
    · rw [fsGet_remove, if_neg (fun e => hinfo_ne e.symm),
        fsGet_set_other _ _ _ _ hfa_ne, fsGet_set_other _ _ _ _ hfa_ne,
        fsGet_set_other _ _ _ _ hfa_ne, hget1]

/-- Witness for C1 on a one-file filesystem: a plain rename failure reports
the wrapped move error and leaves the metadata deleted, the trash data slot
empty and the source present; and in the cross-device remove-source failure
the metadata is likewise deleted. -/
theorem claim_C1_metadata_first_witness :
    ((trashGo [(strBytes "/s/f", ⟨false, false, [], 420, 77, [1, 2]⟩)] (strBytes "/s/f")
        (strBytes "/T") ⟨⟨2024, 1, 2, 3, 4, 5⟩, 0, 0⟩ (strBytes "rr") true
        RenameOutcome.failed 9 ⟨true, true, true, true⟩).1 =
      .error (.wrap "failed to move to trash" (.io "rename")) ∧
      fsGet (trashGo [(strBytes "/s/f", ⟨false, false, [], 420, 77, [1, 2]⟩)]
        (strBytes "/s/f") (strBytes "/T") ⟨⟨2024, 1, 2, 3, 4, 5⟩, 0, 0⟩ (strBytes "rr")
        true RenameOutcome.failed 9 ⟨true, true, true, true⟩).2.1
        (trashFilesPathOf [(strBytes "/s/f", ⟨false, false, [], 420, 77, [1, 2]⟩)]
          (strBytes "/s/f") (strBytes "/T") (strBytes "rr")) = none ∧
      fsGet (trashGo [(strBytes "/s/f", ⟨false, false, [], 420, 77, [1, 2]⟩)]
        (strBytes "/s/f") (strBytes "/T") ⟨⟨2024, 1, 2, 3, 4, 5⟩, 0, 0⟩ (strBytes "rr")
        true RenameOutcome.failed 9 ⟨true, true, true, true⟩).2.1 (strBytes "/s/f") =
        some ⟨false, false, [], 420, 77, [1, 2]⟩) ∧
    fsGet (trashGo [(strBytes "/s/f", ⟨false, false, [], 420, 77, [1, 2]⟩)]
        (strBytes "/s/f") (strBytes "/T") ⟨⟨2024, 1, 2, 3, 4, 5⟩, 0, 0⟩ (strBytes "rr")
        true RenameOutcome.crossDevice 9 ⟨true, true, true, false⟩).2.1
      (trashInfoPathOf [(strBytes "/s/f", ⟨false, false, [], 420, 77, [1, 2]⟩)]
        (strBytes "/s/f") (strBytes "/T") (strBytes "rr")) = none := by
  constructor
  · exact (claim_C1_metadata_first [(strBytes "/s/f", ⟨false, false, [], 420, 77, [1, 2]⟩)]
      (strBytes "/s/f") (strBytes "/T") ⟨⟨2024, 1, 2, 3, 4, 5⟩, 0, 0⟩ (strBytes "rr")
      true RenameOutcome.failed 9 ⟨true, true, true, true⟩
      ⟨false, false, [], 420, 77, [1, 2]⟩ (by decide) rfl (by decide) (by decide)
      (by decide) (by decide)).2.2.1 rfl rfl
  · exact ((claim_C1_metadata_first [(strBytes "/s/f", ⟨false, false, [], 420, 77, [1, 2]⟩)]
      (strBytes "/s/f") (strBytes "/T") ⟨⟨2024, 1, 2, 3, 4, 5⟩, 0, 0⟩ (strBytes "rr")
      true RenameOutcome.crossDevice 9 ⟨true, true, true, false⟩
      ⟨false, false, [], 420, 77, [1, 2]⟩ (by decide) rfl (by decide) (by decide)
      (by decide) (by decide)).2.2.2 rfl rfl rfl rfl).2.1

/-- Counterexample to C1 as stated: with the cross-device fallback failing at
the final source removal after a complete copy, Trash reports the move error
and deletes the metadata record, yet the trash root is left holding the full
data object at its files path — so the claim that no trash root is left
holding a data object without the move having succeeded is false. -/
theorem claim_C1_counterexample :
    (trashGo [(strBytes "/s/f", ⟨false, false, [], 420, 77, [1, 2]⟩)] (strBytes "/s/f")
        (strBytes "/T") ⟨⟨2024, 1, 2, 3, 4, 5⟩, 0, 0⟩ (strBytes "rr") true
        RenameOutcome.crossDevice 9 ⟨true, true, true, false⟩).1 =
      .error (.wrap "failed to move to trash" (.io "remove source")) ∧
    fsGet (trashGo [(strBytes "/s/f", ⟨false, false, [], 420, 77, [1, 2]⟩)]
        (strBytes "/s/f") (strBytes "/T") ⟨⟨2024, 1, 2, 3, 4, 5⟩, 0, 0⟩ (strBytes "rr")
        true RenameOutcome.crossDevice 9 ⟨true, true, true, false⟩).2.1
      (trashInfoPathOf [(strBytes "/s/f", ⟨false, false, [], 420, 77, [1, 2]⟩)]
        (strBytes "/s/f") (strBytes "/T") (strBytes "rr")) = none ∧
    fsGet (trashGo [(strBytes "/s/f", ⟨false, false, [], 420, 77, [1, 2]⟩)]
        (strBytes "/s/f") (strBytes "/T") ⟨⟨2024, 1, 2, 3, 4, 5⟩, 0, 0⟩ (strBytes "rr")
        true RenameOutcome.crossDevice 9 ⟨true, true, true, false⟩).2.1
      (trashFilesPathOf [(strBytes "/s/f", ⟨false, false, [], 420, 77, [1, 2]⟩)]
        (strBytes "/s/f") (strBytes "/T") (strBytes "rr")) =
      some ⟨false, false, [], 420, 77, [1, 2]⟩ := by
  refine ⟨by decide, by decide, by decide⟩

/-- C6: when any filesystem object occupies the entry original path, Restore
fails with the already-exists error and performs no filesystem mutation: the
state is returned unchanged, no event is emitted, and the entry metadata is
still present and still parses, so the entry remains listable. -/
theorem claim_C6_restore_occupied (fs : FS) (trashDir name : Str)
    (mk rn rm cp : Bool) (f g : File) (info : ParsedInfo)
    (hinfo : fsGet fs (infoPathOf trashDir name) = some f)
    (hparse : parseTrashInfoContent f.data = .ok info)
    (hocc : fsGet fs info.originalPath = some g) :
    restoreGo fs trashDir name mk rn rm cp = (.error .alreadyExists, fs, []) ∧
    fsGet (restoreGo fs trashDir name mk rn rm cp).2.1 (infoPathOf trashDir name)
      = some f ∧
    parseTrashInfoContent f.data = .ok info ∧
    fsGet (restoreGo fs trashDir name mk rn rm cp).2.1 (filesPathOf trashDir name)
      = fsGet fs (filesPathOf trashDir name) := by
  have hmain : restoreGo fs trashDir name mk rn rm cp = (.error .alreadyExists, fs, []) := by
    unfold restoreGo
    dsimp only
    rw [hinfo]
    dsimp only
    rw [hparse]
    dsimp only
    rw [if_pos (by rw [fsExists, hocc]; rfl)]
  refine ⟨hmain, ?_, hparse, ?_⟩
  · rw [hmain]
    exact hinfo
  · rw [hmain]

/-- Witness for C6: a root holding one valid entry whose original path is
occupied; Restore returns the already-exists error and the unchanged state. -/
theorem claim_C6_restore_occupied_witness :
    restoreGo
        [(strBytes "/T/info/n.trashinfo",
            { data := writeTrashInfoContent (strBytes "/orig")
                ⟨⟨2024, 1, 2, 3, 4, 5⟩, 0, 0⟩ }),
          (strBytes "/T/files/n", {}), (strBytes "/orig", {})]
        (strBytes "/T") (strBytes "n") true true true true =
      (.error .alreadyExists,
        [(strBytes "/T/info/n.trashinfo",
            { data := writeTrashInfoContent (strBytes "/orig")
                ⟨⟨2024, 1, 2, 3, 4, 5⟩, 0, 0⟩ }),
          (strBytes "/T/files/n", {}), (strBytes "/orig", {})], []) :=
  (claim_C6_restore_occupied _ (strBytes "/T") (strBytes "n") true true true true
    { data := writeTrashInfoContent (strBytes "/orig") ⟨⟨2024, 1, 2, 3, 4, 5⟩, 0, 0⟩ }
    {} ⟨strBytes "/orig", ⟨2024, 1, 2, 3, 4, 5⟩⟩
    (by decide) (by decide) (by decide)).1

/-- C3 (amended): when the data object has been moved back to its original
path and removal of the metadata record then fails, Restore attempts the
compensating move of the data object back into the trash and reports the
metadata-removal failure, wrapped with context, to the caller; the returned
error is not the declared restore-failed sentinel. -/
theorem claim_C3_restore_compensation (fs : FS) (trashDir name : Str)
    (cp : Bool) (f df : File) (info : ParsedInfo)
    (hinfo : fsGet fs (infoPathOf trashDir name) = some f)
    (hparse : parseTrashInfoContent f.data = .ok info)
    (hfree : fsGet fs info.originalPath = none)
    (hdata : fsGet fs (filesPathOf trashDir name) = some df)
    (hne1 : info.originalPath ≠ filesPathOf trashDir name) :
    (restoreGo fs trashDir name true true false cp).1 =
      .error (.wrap "failed to remove info file" (.io "remove")) ∧
    Event.compensateMove info.originalPath (filesPathOf trashDir name) ∈
      (restoreGo fs trashDir name true true false cp).2.2 ∧
    (cp = true →
      fsGet (restoreGo fs trashDir name true true false cp).2.1
        (filesPathOf trashDir name) = some df ∧
      fsGet (restoreGo fs trashDir name true true false cp).2.1 info.originalPath
        = none) ∧
    errIs (.wrap "failed to remove info file" (.io "remove")) .restoreFailed = false := by
  have hshape : restoreGo fs trashDir name true true false cp =
      (.error (.wrap "failed to remove info file" (.io "remove")),
        (if cp then renameFS (renameFS fs (filesPathOf trashDir name) info.originalPath)
          info.originalPath (filesPathOf trashDir name)
        else renameFS fs (filesPathOf trashDir name) info.originalPath),
        [Event.moveData (filesPathOf trashDir name) info.originalPath,
          Event.removeInfo (infoPathOf trashDir name),
          Event.compensateMove info.originalPath (filesPathOf trashDir name)]) := by
    unfold restoreGo
    dsimp only
    rw [hinfo]
    dsimp only
    rw [hparse]
    dsimp only
    rw [if_neg (by rw [fsExists, hfree]; exact Bool.false_ne_true)]
    rw [if_neg (by simp)]
    rw [if_neg (by rw [fsExists, hdata]; simp)]
    rw [if_neg (by simp)]
  refine ⟨by rw [hshape], by rw [hshape]; simp, ?_, by decide⟩
  intro hcp
  subst hcp
  rw [hshape]
  dsimp only
  rw [if_pos rfl]
  have h1 : renameFS fs (filesPathOf trashDir name) info.originalPath =
      fsSet (fsRemove fs (filesPathOf trashDir name)) info.originalPath df :=
    renameFS_some fs _ _ df hdata
  have h2 : fsGet (renameFS fs (filesPathOf trashDir name) info.originalPath)
      info.originalPath = some df := by
    rw [h1, fsGet_set_self]
  rw [renameFS_some _ _ _ df h2]
  constructor
  · rw [fsGet_set_self]
  · rw [fsGet_set_other _ _ _ _ hne1, fsGet_remove, if_pos rfl]

/-- Counterexample to C3 as stated: on a concrete root where metadata removal
fails after a successful restore move, the error actually returned is the
wrapped removal error, and it does not match the declared restore-failed
sentinel under the errors.Is chain, so the restore-failed error condition is
not what the caller receives. -/
theorem claim_C3_counterexample :
    (restoreGo
        [(strBytes "/T/info/n.trashinfo",
            { data := writeTrashInfoContent (strBytes "/orig")
                ⟨⟨2024, 1, 2, 3, 4, 5⟩, 0, 0⟩ }),
          (strBytes "/T/files/n", {})]
        (strBytes "/T") (strBytes "n") true true false true).1 =
      .error (.wrap "failed to remove info file" (.io "remove")) ∧
    errIs (.wrap "failed to remove info file" (.io "remove")) .restoreFailed = false ∧
    (GoErr.wrap "failed to remove info file" (.io "remove")) ≠ GoErr.restoreFailed := by
  refine ⟨by decide, by decide, by decide⟩

/-- Witness for the amended C3 at the same concrete root: the compensation
move is attempted, the wrapped removal error is returned, and the data object
is back at its trash location with the original path empty again. -/
theorem claim_C3_restore_compensation_witness :
    (restoreGo
        [(strBytes "/T/info/n.trashinfo",
            { data := writeTrashInfoContent (strBytes "/orig")
                ⟨⟨2024, 1, 2, 3, 4, 5⟩, 0, 0⟩ }),
          (strBytes "/T/files/n", { data := [7] })]
        (strBytes "/T") (strBytes "n") true true false true).1 =
      .error (.wrap "failed to remove info file" (.io "remove")) ∧
    Event.compensateMove (strBytes "/orig") (filesPathOf (strBytes "/T") (strBytes "n")) ∈
      (restoreGo
        [(strBytes "/T/info/n.trashinfo",
            { data := writeTrashInfoContent (strBytes "/orig")
                ⟨⟨2024, 1, 2, 3, 4, 5⟩, 0, 0⟩ }),
          (strBytes "/T/files/n", { data := [7] })]
        (strBytes "/T") (strBytes "n") true true false true).2.2 ∧
    fsGet (restoreGo
        [(strBytes "/T/info/n.trashinfo",
            { data := writeTrashInfoContent (strBytes "/orig")
                ⟨⟨2024, 1, 2, 3, 4, 5⟩, 0, 0⟩ }),
          (strBytes "/T/files/n", { data := [7] })]
        (strBytes "/T") (strBytes "n") true true false true).2.1
      (filesPathOf (strBytes "/T") (strBytes "n")) = some { data := [7] } ∧
    fsGet (restoreGo
        [(strBytes "/T/info/n.trashinfo",
            { data := writeTrashInfoContent (strBytes "/orig")
                ⟨⟨2024, 1, 2, 3, 4, 5⟩, 0, 0⟩ }),
          (strBytes "/T/files/n", { data := [7] })]
        (strBytes "/T") (strBytes "n") true true false true).2.1 (strBytes "/orig")
      = none := by
  have h := claim_C3_restore_compensation
    [(strBytes "/T/info/n.trashinfo",
        { data := writeTrashInfoContent (strBytes "/orig") ⟨⟨2024, 1, 2, 3, 4, 5⟩, 0, 0⟩ }),
      (strBytes "/T/files/n", { data := [7] })]
    (strBytes "/T") (strBytes "n") true
    { data := writeTrashInfoContent (strBytes "/orig") ⟨⟨2024, 1, 2, 3, 4, 5⟩, 0, 0⟩ }
    { data := [7] } ⟨strBytes "/orig", ⟨2024, 1, 2, 3, 4, 5⟩⟩
    (by decide) (by decide) (by decide) (by decide) (by decide)
  exact ⟨h.1, h.2.1, (h.2.2.1 rfl).1, (h.2.2.1 rfl).2⟩

/-- C7: in the cross-device fallback for a regular file the destination is
created exclusively (an occupied destination fails with no mutation) with the
source permission bits; on full success all bytes are copied, the source
modification time is set on the destination, and the source is removed; and
a failure of the byte copy, of the close, or of the timestamp copy — the
steps that can leave the destination partial — removes the partial
destination before the error is returned, leaving the source intact. -/
theorem claim_C7_crossdevice_copy (fs : FS) (src dst : Str) (now : Int)
    (o : CopyOracle) (f : File) (hsrc : fsGet fs src = some f)
    (hreg : f.isSymlink = false) (hne : src ≠ dst) :
    (fsExists fs dst = true →
      copyFileAcrossDevices fs src dst now o =
        (.error (.io "open destination exclusive"), fs)) ∧
    (fsExists fs dst = false → o.copyOk = true → o.closeOk = true →
      o.chtimesOk = true → o.removeSrcOk = true →
      (copyFileAcrossDevices fs src dst now o).1 = .ok () ∧
      fsGet (copyFileAcrossDevices fs src dst now o).2 dst =
        some { isDir := false, isSymlink := false, linkTarget := [],
               mode := f.mode, mtime := f.mtime, data := f.data } ∧
      fsGet (copyFileAcrossDevices fs src dst now o).2 src = none) ∧
    (fsExists fs dst = false →
      (o.copyOk = false ∨ o.closeOk = false ∨ o.chtimesOk = false) →
      (∃ tag, (copyFileAcrossDevices fs src dst now o).1 = .error (.io tag)) ∧
      fsGet (copyFileAcrossDevices fs src dst now o).2 dst = none ∧
      fsGet (copyFileAcrossDevices fs src dst now o).2 src = some f) := by
  obtain ⟨co, cl, ch, rs⟩ := o
  unfold copyFileAcrossDevices
  simp only [hsrc, hreg]
  rw [if_neg Bool.false_ne_true]
  dsimp only
  refine ⟨?_, ?_, ?_⟩
  · intro hdst
    rw [hdst]
    rfl
  · intro hdst hco hcl hch hrs
    subst hco; subst hcl; subst hch; subst hrs
    rw [hdst]
    refine ⟨rfl, ?_, ?_⟩
    · show fsGet (fsRemove (fsSet (fsSet (fsSet fs dst _) dst _) dst
          { mode := f.mode, mtime := f.mtime, data := f.data }) src) dst = _
      rw [fsGet_remove, if_neg (fun e => hne e.symm), fsGet_set_self]
    · show fsGet (fsRemove (fsSet (fsSet (fsSet fs dst _) dst _) dst
          { mode := f.mode, mtime := f.mtime, data := f.data }) src) src = none
      rw [fsGet_remove, if_pos rfl]
  · intro hdst hfail
    rw [hdst]
    have hget_dst_none : ∀ g1 g2 : File,
        fsGet (fsRemove (fsSet (fsSet fs dst g1) dst g2) dst) dst = none := by
      intro g1 g2
      rw [fsGet_remove, if_pos rfl]
    have hget_dst_none1 : ∀ g1 : File,
        fsGet (fsRemove (fsSet fs dst g1) dst) dst = none := by
      intro g1
      rw [fsGet_remove, if_pos rfl]
    have hget_src : ∀ g1 g2 : File,
        fsGet (fsRemove (fsSet (fsSet fs dst g1) dst g2) dst) src = some f := by
      intro g1 g2
      rw [fsGet_remove, if_neg hne, fsGet_set_other _ _ _ _ hne,
        fsGet_set_other _ _ _ _ hne, hsrc]
    have hget_src1 : ∀ g1 : File,
        fsGet (fsRemove (fsSet fs dst g1) dst) src = some f := by
      intro g1
      rw [fsGet_remove, if_neg hne, fsGet_set_other _ _ _ _ hne, hsrc]
    cases co with
    | false =>
      exact ⟨⟨"copy", rfl⟩, hget_dst_none1 _, hget_src1 _⟩
    | true =>
      cases cl with
      | false => exact ⟨⟨"close", rfl⟩, hget_dst_none _ _, hget_src _ _⟩
      | true =>
        cases ch with
        | false => exact ⟨⟨"chtimes", rfl⟩, hget_dst_none _ _, hget_src _ _⟩
        | true =>
          rcases hfail with h | h | h <;> cases h

/-- Witness for C7 on a one-file filesystem: the successful copy produces the
destination with the source bytes, permissions and timestamp and removes the
source; a failing byte copy removes the partial destination and keeps the
source; an occupied destination fails the exclusive create. -/
theorem claim_C7_crossdevice_copy_witness :
    ((copyFileAcrossDevices [(strBytes "/a", ⟨false, false, [], 420, 77, [1, 2]⟩)]
        (strBytes "/a") (strBytes "/b") 99 ⟨true, true, true, true⟩).1 = .ok () ∧
      fsGet (copyFileAcrossDevices [(strBytes "/a", ⟨false, false, [], 420, 77, [1, 2]⟩)]
        (strBytes "/a") (strBytes "/b") 99 ⟨true, true, true, true⟩).2 (strBytes "/b") =
        some ⟨false, false, [], 420, 77, [1, 2]⟩ ∧
      fsGet (copyFileAcrossDevices [(strBytes "/a", ⟨false, false, [], 420, 77, [1, 2]⟩)]
        (strBytes "/a") (strBytes "/b") 99 ⟨true, true, true, true⟩).2 (strBytes "/a") =
        none) ∧
    (fsGet (copyFileAcrossDevices [(strBytes "/a", ⟨false, false, [], 420, 77, [1, 2]⟩)]
        (strBytes "/a") (strBytes "/b") 99 ⟨false, true, true, true⟩).2 (strBytes "/b") =
        none ∧
      fsGet (copyFileAcrossDevices [(strBytes "/a", ⟨false, false, [], 420, 77, [1, 2]⟩)]
        (strBytes "/a") (strBytes "/b") 99 ⟨false, true, true, true⟩).2 (strBytes "/a") =
        some ⟨false, false, [], 420, 77, [1, 2]⟩) := by
  constructor
  · exact (claim_C7_crossdevice_copy [(strBytes "/a", ⟨false, false, [], 420, 77, [1, 2]⟩)]
      (strBytes "/a") (strBytes "/b") 99
      ⟨true, true, true, true⟩ ⟨false, false, [], 420, 77, [1, 2]⟩
      (by decide) rfl (by decide)).2.1 (by decide) rfl rfl rfl rfl
  · have h := (claim_C7_crossdevice_copy [(strBytes "/a", ⟨false, false, [], 420, 77, [1, 2]⟩)]
      (strBytes "/a") (strBytes "/b") 99
      ⟨false, true, true, true⟩ ⟨false, false, [], 420, 77, [1, 2]⟩
      (by decide) rfl (by decide)).2.2 (by decide) (Or.inl rfl)
    exact ⟨h.2.1, h.2.2⟩

theorem emptyEnts_ok (l : List (Str × Str)) (failRemove : Str → Bool)
    (h : ∀ e ∈ l, failRemove e.1 = false) :
    emptyEnts l failRemove = (.ok (), []) := by
  induction l with
  | nil => rfl
  | cons e rest ih =>
    rw [emptyEnts, if_neg (by rw [h e (List.mem_cons_self e rest)]; exact Bool.false_ne_true)]
    exact ih (fun x hx => h x (List.mem_cons_of_mem e hx))

theorem emptyTrashDirM_ok (r : RootDirs) (failRemove : Str → Bool)
    (h : ∀ s, failRemove s = false) :
    emptyTrashDirM r failRemove = (.ok (), ⟨[], []⟩) := by
  unfold emptyTrashDirM
  rw [emptyEnts_ok r.filesEnts failRemove (fun e _ => h e.1),
    emptyEnts_ok r.infoEnts failRemove (fun e _ => h e.1)]

theorem emptyAllM_ok (ms : List RootDirs) (failRemove : Str → Bool)
    (h : ∀ s, failRemove s = false) :
    emptyAllM ms failRemove = (.ok (), ms.map (fun _ => ⟨[], []⟩)) := by
  induction ms with
  | nil => rfl
  | cons r rest ih =>
    rw [emptyAllM, emptyTrashDirM_ok r failRemove h]
    rw [ih]
    rfl

theorem emptyEnts_fail (l : List (Str × Str)) (failRemove : Str → Bool)
    (h : ∃ x ∈ l, failRemove x.1 = true) :
    ∃ rem, emptyEnts l failRemove = (.error (.io "remove all"), rem) := by
  induction l with
  | nil => obtain ⟨x, hx, _⟩ := h; cases hx
  | cons e rest ih =>
    by_cases he : failRemove e.1 = true
    · exact ⟨e :: rest, by rw [emptyEnts, if_pos he]⟩
    · obtain ⟨x, hx, hfx⟩ := h
      rcases List.mem_cons.mp hx with rfl | hx2
      · exact absurd hfx he
      · obtain ⟨rem, hrem⟩ := ih ⟨x, hx2, hfx⟩
        exact ⟨rem, by rw [emptyEnts, if_neg he, hrem]⟩

theorem listGo_empty (ms : List RootDirs) :
    listGo ⟨[], []⟩ (ms.map (fun _ => ⟨[], []⟩)) = [] := by
  unfold listGo listTrashDirM
  induction ms with
  | nil => rfl
  | cons r rest ih => simp [ih]

/-- C9: with no removal failures, Empty succeeds and leaves every root with
no entries, a second Empty immediately after also succeeds, and List over the
resulting roots returns zero entries; while a removal failure in the home
files directory aborts the whole operation before the info directory is
touched and surfaces the wrapped removal error to the caller. -/
theorem claim_C9_empty_idempotent (home : RootDirs) (mounts : List RootDirs)
    (failRemove : Str → Bool) :
    ((∀ s, failRemove s = false) →
      emptyGo home mounts failRemove =
        (.ok (), ⟨[], []⟩, mounts.map (fun _ => ⟨[], []⟩)) ∧
      listGo ⟨[], []⟩ (mounts.map (fun _ => ⟨[], []⟩)) = [] ∧
      emptyGo ⟨[], []⟩ (mounts.map (fun _ => ⟨[], []⟩)) failRemove =
        (.ok (), ⟨[], []⟩, (mounts.map (fun _ => (⟨[], []⟩ : RootDirs))).map
          (fun _ => ⟨[], []⟩))) ∧
    ((∃ x ∈ home.filesEnts, failRemove x.1 = true) →
      (emptyGo home mounts failRemove).1 =
        .error (.wrap "failed to empty files directory" (.io "remove all")) ∧
      (emptyGo home mounts failRemove).2.1.infoEnts = home.infoEnts ∧
      (emptyGo home mounts failRemove).2.2 = mounts) := by
  constructor
  · intro h
    refine ⟨?_, listGo_empty mounts, ?_⟩
    · unfold emptyGo
      rw [emptyTrashDirM_ok home failRemove h]
      rw [emptyAllM_ok mounts failRemove h]
    · unfold emptyGo
      rw [emptyTrashDirM_ok ⟨[], []⟩ failRemove h]
      rw [emptyAllM_ok _ failRemove h]
  · intro h
    obtain ⟨rem, hrem⟩ := emptyEnts_fail home.filesEnts failRemove h
    have hshape : emptyGo home mounts failRemove =
        (.error (.wrap "failed to empty files directory" (.io "remove all")),
          { home with filesEnts := rem }, mounts) := by
      unfold emptyGo emptyTrashDirM
      rw [hrem]
    rw [hshape]
    exact ⟨rfl, rfl, rfl⟩

/-- Witness for C9: a home root with one file entry and one info entry and no
mounts; the all-success oracle empties everything and a second call succeeds,
and an always-failing oracle aborts with the wrapped error. -/
theorem claim_C9_empty_idempotent_witness :
    (emptyGo ⟨[(strBytes "a", strBytes "x")], [(strBytes "b.trashinfo", strBytes "y")]⟩
        [] (fun _ => false) = (.ok (), ⟨[], []⟩, []) ∧
      listGo ⟨[], []⟩ [] = [] ∧
      emptyGo ⟨[], []⟩ [] (fun _ => false) = (.ok (), ⟨[], []⟩, [])) ∧
    (emptyGo ⟨[(strBytes "a", strBytes "x")], [(strBytes "b.trashinfo", strBytes "y")]⟩
        [] (fun _ => true)).1 =
      .error (.wrap "failed to empty files directory" (.io "remove all")) := by
  constructor
  · exact (claim_C9_empty_idempotent
      ⟨[(strBytes "a", strBytes "x")], [(strBytes "b.trashinfo", strBytes "y")]⟩
      [] (fun _ => false)).1 (fun s => rfl)
  · exact ((claim_C9_empty_idempotent
      ⟨[(strBytes "a", strBytes "x")], [(strBytes "b.trashinfo", strBytes "y")]⟩
      [] (fun _ => true)).2 ⟨(strBytes "a", strBytes "x"),
        List.mem_cons_self _ _, rfl⟩).1

/-- C10: the secondary entry point Put performs the data move into the trash
before writing the metadata record — the trace is always the move event
followed (at most) by the metadata-write event, the reverse of the
metadata-first ordering proved for Trash — and when the metadata write then
fails, the moved file remains at its trash destination with the source gone
(no rollback), and Put returns both the trash destination path and an
error. -/
theorem claim_C10_put_move_first (fs : FS) (path trashFilesDir : Str) (t : GoTime)
    (fuel : Nat) (iw : Bool) (f : File) (dest : Str)
    (hsrc : fsGet fs path = some f)
    (hname : uniqueTrashName (fsExists fs) trashFilesDir (baseNameOf path) fuel =
      some dest)
    (hne : path ≠ dest) :
    ((putGo fs path trashFilesDir t fuel true iw).2.2 =
      [Event.moveData path dest, Event.writeInfo (putInfoPathOf dest)]) ∧
    (iw = false →
      (putGo fs path trashFilesDir t fuel true iw).1 =
        (dest, some (.wrap "trash: file trashed but failed to write .trashinfo"
          (.io "write"))) ∧
      fsGet (putGo fs path trashFilesDir t fuel true iw).2.1 dest = some f ∧
      fsGet (putGo fs path trashFilesDir t fuel true iw).2.1 path = none) := by
  unfold putGo
  simp only [hsrc, hname]
  rw [if_neg (by simp)]
  cases iw with
  | false =>
    refine ⟨rfl, fun _ => ⟨rfl, ?_, ?_⟩⟩
    · show fsGet (renameFS fs path dest) dest = some f
      rw [renameFS_some fs path dest f hsrc, fsGet_set_self]
    · show fsGet (renameFS fs path dest) path = none
      rw [renameFS_some fs path dest f hsrc, fsGet_set_other _ _ _ _ hne,
        fsGet_remove, if_pos rfl]
  | true =>
    exact ⟨rfl, fun h => by cases h⟩

/-- Witness for C10 on a one-file filesystem with a failing metadata write:
the trace is move-then-write, Put returns the destination together with the
wrapped error, and the file sits at the destination with the source gone. -/
theorem claim_C10_put_move_first_witness :
    ((putGo [(strBytes "/s/f", {})] (strBytes "/s/f") (strBytes "/T/files")
        ⟨⟨2024, 1, 2, 3, 4, 5⟩, 0, 0⟩ 3 true false).2.2 =
      [Event.moveData (strBytes "/s/f") (joinP (strBytes "/T/files") (strBytes "f")),
        Event.writeInfo (putInfoPathOf (joinP (strBytes "/T/files") (strBytes "f")))]) ∧
    (putGo [(strBytes "/s/f", {})] (strBytes "/s/f") (strBytes "/T/files")
        ⟨⟨2024, 1, 2, 3, 4, 5⟩, 0, 0⟩ 3 true false).1 =
      (joinP (strBytes "/T/files") (strBytes "f"),
        some (.wrap "trash: file trashed but failed to write .trashinfo" (.io "write"))) := by
  have h := claim_C10_put_move_first [(strBytes "/s/f", {})] (strBytes "/s/f")
    (strBytes "/T/files") ⟨⟨2024, 1, 2, 3, 4, 5⟩, 0, 0⟩ 3 false {}
    (joinP (strBytes "/T/files") (strBytes "f")) (by decide) (by decide) (by decide)
  exact ⟨h.1, (h.2 rfl).1⟩

end TrashSpec
